import Mathlib

/-!
# h3c: a shallow embedding of `h3c.c` and `main.c`

The H3C 802.1X supplicant answers the callbacks of an external EAPoL engine.
This file embeds the two translation units of the repository:

* bytes are natural numbers, buffers are lists of bytes whose length is the
  capacity of the buffer; a read or a write outside a buffer, a call through a
  null pointer and a dereference of a null pointer are undefined behaviour and
  make the embedded function return `none` (or `Outcome.fault`);
* `uint8_t` and `uint16_t` assignments are written with an explicit `% 256`
  and `% 65536`;
* the static variables `ctx` and `ec`, the signal dispositions and the sequence
  of calls made to the outside (sink, engine, operating system) are the fields
  of `World`;
* what the outside answers (engine results, `fork`, `waitpid`, delivered
  signals, `getopt_long`) is given to the embedded functions as arguments.
-/

namespace H3C

/-! ## Status codes and engine results -/

/-- Status codes of `h3c.h`, listed in the order of the `H3C_DESC` table of `h3c.c`. -/
inductive H3cStatus where
  | H3C_OK
  | H3C_S_EAP_FAILURE
  | H3C_S_EAP_SUCCESS
  | H3C_S_EAP_TYPE_IDENTITY
  | H3C_S_EAP_TYPE_MD5
  | H3C_S_EAP_TYPE_H3C
  | H3C_S_EAP_RESPONSE
  | H3C_S_EAP_START
  | H3C_S_EAP_UNKNOWN
  | H3C_E_INVALID_PARAMETERS
  | H3C_E_EAPOL_INIT
  | H3C_E_EAPOL_START
  | H3C_E_EAPOL_RESPONSE
  deriving DecidableEq, Repr

/-- Modelled from the spec: `eapol.h` is not among the sources. The engine
signals "continue" with `EAPOL_OK`; `EAPOL_E_AUTH_FAILURE` is the
authentication-failure outcome; every other engine error is `other n`. -/
inductive EapolResult where
  | EAPOL_OK
  | EAPOL_E_AUTH_FAILURE
  | other (code : Nat)
  deriving DecidableEq, Repr

/-- Exit statuses of `stdlib.h`. -/
inductive ExitStatus where
  | EXIT_SUCCESS
  | EXIT_FAILURE
  deriving DecidableEq, Repr

/-! ## Bytes, strings and buffers -/

/-- The function `strlen`: the number of bytes before the first NUL byte. -/
def strlen : List Nat → Nat
  | [] => 0
  | b :: bs => if b = 0 then 0 else strlen bs + 1

/-- The assignment `buf[i] = b`; undefined outside the buffer. -/
def store (buf : List Nat) (i : Nat) (b : Nat) : Option (List Nat) :=
  if i < buf.length then some (buf.set i b) else none

/-- The call `memcpy(dst + off, src, n)` for buffers that do not overlap:
bytes `off .. off + n - 1` of `dst` become the first `n` bytes of `src`.
Undefined when `src` has fewer than `n` bytes or `dst` fewer than `off + n`. -/
def memcpy (dst : List Nat) (off : Nat) (src : List Nat) (n : Nat) : Option (List Nat) :=
  if n ≤ src.length ∧ off + n ≤ dst.length then
    some (dst.take off ++ src.take n ++ dst.drop (off + n))
  else none

/-- The constant `VERSION_INFO` of `h3c.c`:
`0x06, 0x07, "bjQ7SE8BZ3MqHhs3clMregcDY3Y=", 0x20, 0x20`. -/
def VERSION_INFO : List Nat :=
  [0x06, 0x07, 98, 106, 81, 55, 83, 69, 56, 66, 90, 51, 77, 113, 72, 104,
   115, 51, 99, 108, 77, 114, 101, 103, 99, 68, 89, 51, 89, 61, 0x20, 0x20]

/-! ## The process state -/

/-- An output sink: the address of a function `void (*)(int)`. -/
abbrev Sink := Nat

/-- Modelled from the spec: `h3c.h` is not among the sources. The type
`h3c_ctx_t` has the fields interface, username, password and output, in
that order (this is how `main` initialises it and how `h3c_init` reads it).
A field is `none` when the pointer is null; a string is the list of bytes at
the pointer. -/
structure h3c_ctx_t where
  interface : Option (List Nat)
  username : Option (List Nat)
  password : Option (List Nat)
  output : Option Sink
  deriving DecidableEq, Repr

/-- The six static callback functions of `h3c.c`. -/
inductive Callback where
  | h3c_eap_response
  | h3c_eap_success
  | h3c_eap_failure
  | h3c_eap_unknown
  | h3c_send_id
  | h3c_send_md5
  deriving DecidableEq, Repr

/-- Modelled from the spec: `eapol.h` is not among the sources. The type
`eapol_ctx_t` carries the interface name and the callback table that
`h3c_init` fills in. -/
structure eapol_ctx_t where
  interface : Option (List Nat)
  response : Option Callback
  success : Option Callback
  failure : Option Callback
  unknown : Option Callback
  id : Option Callback
  md5 : Option Callback
  deriving DecidableEq, Repr

/-- Signals named in the sources, and one that is not. -/
inductive Signal where
  | SIGINT
  | SIGTERM
  | SIGCHLD
  | SIGTSTP
  | SIGTTOU
  | SIGTTIN
  | SIGHUP
  deriving DecidableEq, Repr

/-- Signal dispositions. -/
inductive Handler where
  | SIG_DFL
  | SIG_IGN
  | h3c_signal_handler
  deriving DecidableEq, Repr

/-- One call made to the outside of `h3c.c` and `main.c`. -/
inductive Event where
  | output (sink : Sink) (code : H3cStatus)
  | eapol_init (ec : eapol_ctx_t)
  | eapol_start
  | eapol_dispatcher
  | eapol_logoff
  | eapol_cleanup
  | signal (sig : Signal) (h : Handler)
  | getpid
  | fork (ret : Int)
  | setsid
  | chdir
  | close (fd : Nat)
  | umask
  | openlog
  | syslog (msg : String)
  | waitpid (pid : Int) (ret : Int) (status : Int)
  | sleep (seconds : Nat)
  | fprintf (fd : Nat) (msg : String)
  | geteuid
  | getpass
  deriving DecidableEq, Repr

/-- The static state of the process and the calls it has made, oldest first. -/
structure World where
  ctx : Option h3c_ctx_t
  ec : eapol_ctx_t
  handlers : List (Signal × Handler)
  trace : List Event
  deriving DecidableEq, Repr

/-- The state at program start: `ctx = NULL`, `ec = {0}`, default dispositions. -/
def World.start : World :=
  { ctx := none
    ec := ⟨none, none, none, none, none, none, none⟩
    handlers := []
    trace := [] }

/-- Record a call to the outside. -/
def World.log (w : World) (e : Event) : World :=
  { w with trace := w.trace ++ [e] }

/-- The disposition of a signal: the most recent `signal` call for it. -/
def World.disposition (w : World) (sig : Signal) : Handler :=
  match w.handlers.find? (fun p => p.1 = sig) with
  | some p => p.2
  | none => Handler.SIG_DFL

/-- The call `signal(sig, h)`. -/
def World.signal (w : World) (sig : Signal) (h : Handler) : World :=
  { w with handlers := (sig, h) :: w.handlers, trace := w.trace ++ [Event.signal sig h] }

/-- The call `ctx->output(code)`. -/
def output (w : World) (code : H3cStatus) : Option World :=
  match w.ctx with
  | none => none
  | some c =>
    match c.output with
    | none => none
    | some f => some (w.log (Event.output f code))

/-! ## The engine callbacks -/

/-- The function `h3c_eap_response`. -/
def h3c_eap_response (w : World) : Option (EapolResult × World) :=
  (output w H3cStatus.H3C_S_EAP_RESPONSE).map fun w1 => (EapolResult.EAPOL_OK, w1)

/-- The function `h3c_eap_success`. -/
def h3c_eap_success (w : World) : Option (EapolResult × World) :=
  (output w H3cStatus.H3C_S_EAP_SUCCESS).map fun w1 => (EapolResult.EAPOL_OK, w1)

/-- The function `h3c_eap_failure`. -/
def h3c_eap_failure (w : World) : Option (EapolResult × World) :=
  (output w H3cStatus.H3C_S_EAP_FAILURE).map fun w1 => (EapolResult.EAPOL_E_AUTH_FAILURE, w1)

/-- The function `h3c_eap_unknown`. -/
def h3c_eap_unknown (w : World) : Option (EapolResult × World) :=
  (output w H3cStatus.H3C_S_EAP_UNKNOWN).map fun w1 => (EapolResult.EAPOL_OK, w1)

/-- What a payload callback leaves behind: its return value, the output
buffer, the value stored in `*length`, and the process state. -/
structure SendResult where
  ret : EapolResult
  out : List Nat
  length : Nat
  world : World
  deriving DecidableEq, Repr

/-- The function `h3c_send_id(out, length)`. -/
def h3c_send_id (w : World) (out : List Nat) : Option SendResult := do
  let w1 ← output w H3cStatus.H3C_S_EAP_TYPE_IDENTITY
  let c ← w1.ctx
  let username ← c.username
  let out1 ← memcpy out 0 VERSION_INFO VERSION_INFO.length
  let out2 ← memcpy out1 VERSION_INFO.length username (strlen username)
  some ⟨EapolResult.EAPOL_OK, out2, (VERSION_INFO.length + strlen username) % 65536, w1⟩

/-- The digest function of `md5.h` (`MD5_Init`, `MD5_Update`, `MD5_Final`),
kept abstract: any function from byte strings to 16 bytes. -/
abbrev MD5Fn := List Nat → { d : List Nat // d.length = 16 }

/-- The function `h3c_send_md5(id, in, out, length)`; `inp` is the buffer `in`. -/
def h3c_send_md5 (MD5 : MD5Fn) (w : World) (id : Nat) (inp : List Nat) (out : List Nat) :
    Option SendResult := do
  let w1 ← output w H3cStatus.H3C_S_EAP_TYPE_MD5
  let c ← w1.ctx
  let password ← c.password
  let username ← c.username
  let len := strlen password % 256
  let out1 ← store out 0 id
  let out2 ← memcpy out1 1 password len
  let in0 ← inp[0]?
  let out3 ← memcpy out2 (1 + len) (inp.drop 1) in0
  let md5 := (MD5 (out3.take (1 + len + in0))).val
  let out4 ← store out3 0 16
  let out5 ← memcpy out4 1 md5 16
  let out6 ← memcpy out5 (1 + 16) username (strlen username)
  some ⟨EapolResult.EAPOL_OK, out6, (1 + 16 + strlen username) % 65536, w1⟩

/-! ## Initialisation -/

/-- The callback table that `h3c_init` writes into `ec`. -/
def callback_table (interface : Option (List Nat)) : eapol_ctx_t :=
  { interface := interface
    response := some Callback.h3c_eap_response
    success := some Callback.h3c_eap_success
    failure := some Callback.h3c_eap_failure
    unknown := some Callback.h3c_eap_unknown
    id := some Callback.h3c_send_id
    md5 := some Callback.h3c_send_md5 }

/-- The function `h3c_init(c)`; `eapol_init` is the engine function of that
name, which is not among the sources: it answers with a result. -/
def h3c_init (eapol_init : eapol_ctx_t → EapolResult) (c : Option h3c_ctx_t) (w : World) :
    H3cStatus × World :=
  match c with
  | none => (H3cStatus.H3C_E_INVALID_PARAMETERS, w)
  | some cfg =>
    match cfg.interface, cfg.username, cfg.password, cfg.output with
    | some i, some u, some p, some _ =>
      if strlen i = 0 ∨ strlen u = 0 ∨ strlen p = 0 then
        (H3cStatus.H3C_E_INVALID_PARAMETERS, w)
      else
        let w1 : World := { w with ctx := some cfg, ec := callback_table cfg.interface }
        let w2 := w1.log (Event.eapol_init w1.ec)
        if eapol_init w1.ec ≠ EapolResult.EAPOL_OK then
          (H3cStatus.H3C_E_EAPOL_INIT, w2)
        else
          (H3cStatus.H3C_OK, w2)
    | _, _, _, _ => (H3cStatus.H3C_E_INVALID_PARAMETERS, w)

/-! ## Running a session -/

/-- How a function of the process ends. -/
inductive Outcome (α : Type) where
  /-- The function returned `a` to its caller. -/
  | ret (a : α) (w : World)
  /-- The process called `exit(status)`. -/
  | exit (status : ExitStatus) (w : World)
  /-- The process was terminated by the default action of a signal. -/
  | killed (sig : Signal) (w : World)
  /-- The answers of the outside are used up and the process is still running. -/
  | pending (w : World)
  /-- Undefined behaviour. -/
  | fault
  deriving DecidableEq, Repr

/-- The state in which an outcome leaves the process, when it is defined. -/
def Outcome.world {α : Type} : Outcome α → Option World
  | Outcome.ret _ w => some w
  | Outcome.exit _ w => some w
  | Outcome.killed _ w => some w
  | Outcome.pending w => some w
  | Outcome.fault => none

/-- The function `h3c_cleanup`. -/
def h3c_cleanup (w : World) : World :=
  (w.log Event.eapol_logoff).log Event.eapol_cleanup

/-- The function `h3c_signal_handler`. -/
def h3c_signal_handler (w : World) : Outcome Unit :=
  Outcome.exit ExitStatus.EXIT_SUCCESS (h3c_cleanup w)

/-- Delivery of a signal to the process: `some o` when the process ends with
outcome `o`, `none` when execution resumes where it was. The default action
of SIGINT, SIGTERM and SIGHUP terminates the process. -/
def deliver (sig : Signal) (w : World) : Option (Outcome Unit) :=
  match w.disposition sig with
  | Handler.h3c_signal_handler => some (h3c_signal_handler w)
  | Handler.SIG_IGN => none
  | Handler.SIG_DFL =>
    match sig with
    | Signal.SIGINT => some (Outcome.killed sig w)
    | Signal.SIGTERM => some (Outcome.killed sig w)
    | Signal.SIGHUP => some (Outcome.killed sig w)
    | _ => none

/-- What the outside does during one pass of the dispatch loop. -/
inductive Stimulus where
  /-- The call `eapol_dispatcher()` returns `r`. -/
  | dispatched (r : EapolResult)
  /-- A signal is delivered between two calls of `eapol_dispatcher`. -/
  | signalled (sig : Signal)
  /-- A signal is delivered while `eapol_dispatcher()` blocks; if the process
  resumes, the call returns `r`. -/
  | interrupted (sig : Signal) (r : EapolResult)
  deriving DecidableEq, Repr

/-- The loop `while (1) { if (eapol_dispatcher() != EAPOL_OK) exit(EXIT_FAILURE); }`
of `h3c_run`, driven by the stimuli of the outside. -/
def dispatch_loop : List Stimulus → World → Outcome Unit
  | [], w => Outcome.pending w
  | Stimulus.dispatched r :: rest, w =>
    let w1 := w.log Event.eapol_dispatcher
    if r ≠ EapolResult.EAPOL_OK then Outcome.exit ExitStatus.EXIT_FAILURE w1
    else dispatch_loop rest w1
  | Stimulus.signalled sig :: rest, w =>
    match deliver sig w with
    | some o => o
    | none => dispatch_loop rest w
  | Stimulus.interrupted sig r :: rest, w =>
    let w1 := w.log Event.eapol_dispatcher
    match deliver sig w1 with
    | some o => o
    | none =>
      if r ≠ EapolResult.EAPOL_OK then Outcome.exit ExitStatus.EXIT_FAILURE w1
      else dispatch_loop rest w1

/-- The function `h3c_run`; `eapol_start` is the result of the engine call of
that name. -/
def h3c_run (eapol_start : EapolResult) (stimuli : List Stimulus) (w : World) : Outcome Unit :=
  match output w H3cStatus.H3C_S_EAP_START with
  | none => Outcome.fault
  | some w1 =>
    let w2 := w1.log Event.eapol_start
    if eapol_start ≠ EapolResult.EAPOL_OK then
      match output w2 H3cStatus.H3C_E_EAPOL_START with
      | none => Outcome.fault
      | some w3 => Outcome.exit ExitStatus.EXIT_FAILURE w3
    else
      let w3 := w2.signal Signal.SIGINT Handler.h3c_signal_handler
      let w4 := w3.signal Signal.SIGTERM Handler.h3c_signal_handler
      dispatch_loop stimuli w4

/-! ## Daemon supervision -/

/-- One return of `waitpid(pid, &status, 0)`. -/
structure WaitResult where
  ret : Int
  status : Int
  deriving DecidableEq, Repr

/-- What the operating system answers during one pass of the supervision
loop: the return value of `fork()` and the successive returns of `waitpid`. -/
structure Spawn where
  fork : Int
  waits : List WaitResult
  deriving DecidableEq, Repr

/-- The loop `do { wait_pid = waitpid(pid, &status, 0); syslog(...); }
while (wait_pid != pid && -1 != wait_pid);`. The flag is false when the
returns are used up before the loop ends: the supervisor is still waiting. -/
def wait_loop (pid : Int) : List WaitResult → World → World × Bool
  | [], w => (w, false)
  | r :: rs, w =>
    let w1 := (w.log (Event.waitpid pid r.ret r.status)).log
      (Event.syslog "Child %d exited, will restart later!\n")
    if r.ret ≠ pid ∧ -1 ≠ r.ret then wait_loop pid rs w1 else (w1, true)

/-- The loop `while (true) { pid = fork(); ... sleep(5); }` of `h3c_daemon`.
When `fork` returns 0 the process is the worker: it performs `h3c_run()` and
then `exit(EXIT_SUCCESS)`. -/
def supervise (eapol_start : EapolResult) (stimuli : List Stimulus) :
    List Spawn → World → Outcome Unit
  | [], w => Outcome.pending w
  | s :: rest, w =>
    let w1 := w.log (Event.fork s.fork)
    if 0 = s.fork then
      match h3c_run eapol_start stimuli w1 with
      | Outcome.ret _ w2 => Outcome.exit ExitStatus.EXIT_SUCCESS w2
      | o => o
    else if 0 < s.fork then
      let w2 := w1.log (Event.syslog "Start child %d\n")
      match wait_loop s.fork s.waits w2 with
      | (w3, false) => Outcome.pending w3
      | (w3, true) => supervise eapol_start stimuli rest (w3.log (Event.sleep 5))
    else
      supervise eapol_start stimuli rest (w1.log (Event.sleep 5))

/-- What the outside answers to `h3c_daemon`. -/
structure DaemonEnv where
  getpid : Int
  fork : Int
  setsid : Int
  chdir : Int
  spawns : List Spawn
  eapol_start : EapolResult
  stimuli : List Stimulus

/-- The statements of `h3c_daemon` between `chdir` and the supervision loop. -/
def detach (w : World) : World :=
  let w := ((w.log (Event.close 0)).log (Event.close 1)).log (Event.close 2)
  let w := w.signal Signal.SIGCHLD Handler.SIG_IGN
  let w := w.signal Signal.SIGTSTP Handler.SIG_IGN
  let w := w.signal Signal.SIGTTOU Handler.SIG_IGN
  let w := w.signal Signal.SIGTTIN Handler.SIG_IGN
  ((w.log Event.umask).log Event.openlog).log (Event.syslog "Start daemon")

/-- The function `h3c_daemon`. -/
def h3c_daemon (env : DaemonEnv) (w : World) : Outcome Unit :=
  let w1 := w.log Event.getpid
  if env.getpid = 1 then Outcome.ret () w1
  else
    let w2 := w1.log (Event.fork env.fork)
    if env.fork < 0 then Outcome.exit ExitStatus.EXIT_FAILURE w2
    else if env.fork > 0 then Outcome.exit ExitStatus.EXIT_SUCCESS w2
    else
      let w3 := w2.log Event.setsid
      if env.setsid < 0 then Outcome.exit ExitStatus.EXIT_FAILURE w3
      else
        let w4 := w3.log Event.chdir
        if env.chdir < 0 then Outcome.exit ExitStatus.EXIT_FAILURE w4
        else supervise env.eapol_start env.stimuli env.spawns (detach w4)

/-! ## The command-line front end -/

/-- The bytes of a NUL-terminated string: those before the first NUL byte. -/
def cstring (s : List Nat) : List Nat :=
  s.take (strlen s)

/-- The test `strcmp(a, b) == 0`. -/
def strcmp_eq (a b : List Nat) : Bool :=
  cstring a == cstring b

/-- The string literal `"en0"`. -/
def en0 : List Nat := [101, 110, 48, 0]

/-- The string literal `"md5"`. -/
def md5_name : List Nat := [109, 100, 53, 0]

/-- The string literal `"xor"`. -/
def xor_name : List Nat := [120, 111, 114, 0]

/-- The help text of `main`. -/
def usage : String :=
  "Usage: h3c [options]\n" ++
  "-h, --help          This help text\n" ++
  "-i, --interface     Network interface (Default: en0)\n" ++
  "-m, --method        EAP-MD5 CHAP Method [md5 / xor] (Default: md5)\n" ++
  "-p, --password      Password\n" ++
  "-u, --username      Username\n"

/-- One return of `getopt_long` other than -1: the option character and `optarg`. -/
structure Opt where
  c : Nat
  optarg : Option (List Nat)
  deriving DecidableEq, Repr

/-- The local variables of `main` that the option loop sets. -/
structure Options where
  interface : Option (List Nat)
  username : Option (List Nat)
  password : Option (List Nat)
  md5 : Bool
  deriving DecidableEq, Repr

/-- What the outside answers to `main`. -/
structure MainEnv where
  opts : List Opt
  geteuid : Nat
  getpass : Option (List Nat)
  eapol_init : eapol_ctx_t → EapolResult
  eapol_start : EapolResult
  stimuli : List Stimulus

/-- The loop `while ((c = getopt_long(...)) != -1) switch (c) { ... }` of
`main`. The option characters are `h` = 104, `i` = 105, `m` = 109, `p` = 112
and `u` = 117. The result is the outcome of `main` when the loop returns from
it, and the options and the state otherwise. -/
def getopt_loop : List Opt → Options → World → Sum (Outcome ExitStatus) (Options × World)
  | [], o, w => Sum.inr (o, w)
  | opt :: rest, o, w =>
    if opt.c = 104 then
      Sum.inl (Outcome.ret ExitStatus.EXIT_SUCCESS (w.log (Event.fprintf 1 usage)))
    else if opt.c = 105 then
      getopt_loop rest { o with interface := opt.optarg } w
    else if opt.c = 109 then
      match opt.optarg with
      | none => Sum.inl Outcome.fault
      | some a =>
        if strcmp_eq a md5_name then getopt_loop rest { o with md5 := true } w
        else if strcmp_eq a xor_name then getopt_loop rest { o with md5 := false } w
        else
          Sum.inl (Outcome.ret ExitStatus.EXIT_FAILURE
            (w.log (Event.fprintf 2 "Method can only be either \"md5\" or \"xor\"\n")))
    else if opt.c = 112 then
      getopt_loop rest { o with password := opt.optarg } w
    else if opt.c = 117 then
      getopt_loop rest { o with username := opt.optarg } w
    else
      Sum.inl (Outcome.ret ExitStatus.EXIT_FAILURE (w.log (Event.fprintf 2 "Invalid arguments.\n")))

/-- The part of `main` after the password checks: build the configuration
`{interface, username, password, NULL}`, call `h3c_init`, then `h3c_run`. -/
def start_session (env : MainEnv) (interface username password : Option (List Nat))
    (w : World) : Outcome ExitStatus :=
  let hc : h3c_ctx_t :=
    { interface := interface, username := username, password := password, output := none }
  let r := h3c_init env.eapol_init (some hc) w
  if r.1 ≠ H3cStatus.H3C_OK then
    Outcome.ret ExitStatus.EXIT_FAILURE
      (r.2.log (Event.fprintf 2 "Ethernet interface initialize fail.\n"))
  else
    match h3c_run env.eapol_start env.stimuli r.2 with
    | Outcome.ret _ w1 => Outcome.ret ExitStatus.EXIT_SUCCESS w1
    | Outcome.exit st w1 => Outcome.exit st w1
    | Outcome.killed sig w1 => Outcome.killed sig w1
    | Outcome.pending w1 => Outcome.pending w1
    | Outcome.fault => Outcome.fault

/-- The function `main`. -/
def main (env : MainEnv) (w : World) : Outcome ExitStatus :=
  let w0 := (w.log (Event.fprintf 1 "h3c %s b%s : Copyright (c) 2018 Tommy Lau <tommy@gen-new.com>\n")).log
    (Event.fprintf 1 "A command line tool for H3C 802.1X authentication\n\n")
  match getopt_loop env.opts ⟨none, none, none, true⟩ w0 with
  | Sum.inl o => o
  | Sum.inr (o, w1) =>
    let w2 := w1.log Event.geteuid
    if env.geteuid ≠ 0 then
      Outcome.exit ExitStatus.EXIT_FAILURE
        (w2.log (Event.fprintf 2 "You have to run this program as root.\n"))
    else
      let interface := match o.interface with
        | none => some en0
        | some i => some i
      match o.username with
      | none =>
        Outcome.ret ExitStatus.EXIT_FAILURE (w2.log (Event.fprintf 2 "Please specific username.\n"))
      | some u =>
        let pw : Option (List Nat) × World := match o.password with
          | none => (env.getpass, w2.log Event.getpass)
          | some p => (some p, w2)
        match pw.1 with
        | none => Outcome.fault
        | some p =>
          if strlen p = 0 then
            Outcome.ret ExitStatus.EXIT_FAILURE (pw.2.log (Event.fprintf 2 "Incorrect password."))
          else
            start_session env interface (some u) (some p) pw.2

/-! ## Sample data for concrete evaluations -/

/-- A 16-byte digest for evaluating the embedding on concrete inputs: the
first 16 bytes of its argument, padded with zeros. It is not MD5. -/
def sampleDigest : MD5Fn := fun t =>
  ⟨(t ++ List.replicate 16 0).take 16, by simp⟩

/-- A session configuration: interface `en0`, the given username and password
(NUL-terminated here), and the sink at address 1. -/
def sampleCtx (username password : List Nat) : h3c_ctx_t :=
  { interface := some en0
    username := some (username ++ [0])
    password := some (password ++ [0])
    output := some 1 }

/-- A process state with the session `sampleCtx username password` installed, as
`h3c_init` leaves `ctx` and `ec`, and with an empty trace. -/
def sampleWorld (username password : List Nat) : World :=
  { ctx := some (sampleCtx username password)
    ec := callback_table (some en0)
    handlers := []
    trace := [] }

/-- A sample answer of the outside to `main`: the command line
`h3c -u user -p pass`, run as root, with an engine that accepts every call. -/
def sampleMainEnv : MainEnv :=
  { opts := [⟨117, some [117, 115, 101, 114, 0]⟩, ⟨112, some [112, 97, 115, 115, 0]⟩]
    geteuid := 0
    getpass := none
    eapol_init := fun _ => EapolResult.EAPOL_OK
    eapol_start := EapolResult.EAPOL_OK
    stimuli := [] }

/-! ## The claims in the words of the specification -/

/-- A string that is missing (null pointer) or empty (no byte before the
terminator). -/
def missing_or_empty : Option (List Nat) → Bool
  | none => true
  | some s => (cstring s).isEmpty

/-- The configurations the specification rejects: the configuration is absent,
or its interface, username or password is missing or empty, or its sink is
absent. -/
def invalid_parameters : Option h3c_ctx_t → Bool
  | none => true
  | some cfg =>
    missing_or_empty cfg.interface || missing_or_empty cfg.username
      || missing_or_empty cfg.password || cfg.output.isNone

/-- The state of a session in its dispatch loop: `h3c_run` has reported the
start to the sink `f`, started the engine, installed its two handlers and
called `eapol_dispatcher` `k` times. -/
def dispatching (w : World) (f : Sink) (k : Nat) : World :=
  { ctx := w.ctx
    ec := w.ec
    handlers := (Signal.SIGTERM, Handler.h3c_signal_handler)
      :: (Signal.SIGINT, Handler.h3c_signal_handler) :: w.handlers
    trace := w.trace
      ++ [Event.output f H3cStatus.H3C_S_EAP_START, Event.eapol_start,
          Event.signal Signal.SIGINT Handler.h3c_signal_handler,
          Event.signal Signal.SIGTERM Handler.h3c_signal_handler]
      ++ List.replicate k Event.eapol_dispatcher }

/-- The calls that the dispatch loop and the signal handler add to a trace. -/
def loop_event (e : Event) : Prop :=
  e = Event.eapol_dispatcher ∨ e = Event.eapol_logoff ∨ e = Event.eapol_cleanup

instance (e : Event) : Decidable (loop_event e) := by
  unfold loop_event
  infer_instance

/-- One worker as its supervisor sees it, from `fork` to the end of the wait:
the process id that `fork` returned, the returns of `waitpid` that keep the
wait going, and the return that ends it. -/
structure WorkerExit where
  pid : Int
  stalls : List WaitResult
  final : WaitResult
  deriving DecidableEq, Repr

/-- A worker was spawned (`fork` returned a positive process id), the stalls
are returns other than the process id and -1, and the final return is the
process id or -1. The exit status is arbitrary. -/
def WorkerExit.valid (x : WorkerExit) : Prop :=
  0 < x.pid ∧ (∀ r ∈ x.stalls, r.ret ≠ x.pid ∧ r.ret ≠ -1)
    ∧ (x.final.ret = x.pid ∨ x.final.ret = -1)

instance (x : WorkerExit) : Decidable x.valid := by
  unfold WorkerExit.valid
  infer_instance

/-- What the operating system answers for a worker that exits. -/
def WorkerExit.spawn (x : WorkerExit) : Spawn :=
  { fork := x.pid, waits := x.stalls ++ [x.final] }

/-- The calls of the supervisor while it waits for process `pid`. -/
def wait_events (pid : Int) : List WaitResult → List Event
  | [] => []
  | r :: rs =>
    Event.waitpid pid r.ret r.status
      :: Event.syslog "Child %d exited, will restart later!\n" :: wait_events pid rs

/-- The calls of the supervisor for one worker that exits: spawn, wait, then
the delay of 5 seconds. -/
def WorkerExit.events (x : WorkerExit) : List Event :=
  Event.fork x.pid :: Event.syslog "Start child %d\n"
    :: (wait_events x.pid (x.stalls ++ [x.final]) ++ [Event.sleep 5])

/-- The calls of the supervisor for a sequence of workers that exit. -/
def supervision_events : List WorkerExit → List Event
  | [] => []
  | x :: xs => x.events ++ supervision_events xs

/-- A call of `fork` that created a worker: it returned a positive process id. -/
def is_spawn : Event → Bool
  | Event.fork ret => decide (0 < ret)
  | _ => false

/-- The number of workers spawned in a trace. -/
def spawned (t : List Event) : Nat :=
  t.countP is_spawn

/-- The number of 5-second delays in a trace. -/
def delays (t : List Event) : Nat :=
  t.count (Event.sleep 5)

/-! ## Strings and buffers: lemmas -/

theorem strlen_le (s : List Nat) : strlen s ≤ s.length := by
  induction s with
  | nil => simp [strlen]
  | cons b bs ih =>
    simp only [strlen, List.length_cons]
    split <;> omega

theorem strlen_append_nul (U t : List Nat) (hU : ∀ b ∈ U, b ≠ 0) :
    strlen (U ++ 0 :: t) = U.length := by
  induction U with
  | nil => simp [strlen]
  | cons b bs ih =>
    have hb : b ≠ 0 := hU b (List.mem_cons_self _ _)
    have hbs : ∀ x ∈ bs, x ≠ 0 := fun x hx => hU x (List.mem_cons_of_mem _ hx)
    simp [strlen, hb, ih hbs]

theorem store_zero (b x : Nat) (xs : List Nat) : store (x :: xs) 0 b = some (b :: xs) := by
  simp [store]

theorem memcpy_at_end (X R src : List Nat) (off n : Nat) (hoff : X.length = off)
    (hsrc : n ≤ src.length) (hR : n ≤ R.length) :
    memcpy (X ++ R) off src n = some (X ++ src.take n ++ R.drop n) := by
  subst hoff
  simp [memcpy, hsrc, hR, List.drop_append]

theorem output_eq (w : World) (c : h3c_ctx_t) (f : Sink) (code : H3cStatus)
    (hc : w.ctx = some c) (hf : c.output = some f) :
    output w code = some (w.log (Event.output f code)) := by
  simp [output, hc, hf]

theorem take_strlen_append_nul (U t : List Nat) (hU : ∀ b ∈ U, b ≠ 0) :
    (U ++ 0 :: t).take (strlen (U ++ 0 :: t)) = U := by
  rw [strlen_append_nul U t hU]
  simp

theorem h3c_send_id_eq (w : World) (c : h3c_ctx_t) (f : Sink) (s out : List Nat)
    (hc : w.ctx = some c) (hf : c.output = some f) (hu : c.username = some s)
    (hcap : 32 + strlen s ≤ out.length) :
    h3c_send_id w out = some
      { ret := EapolResult.EAPOL_OK
        out := VERSION_INFO ++ s.take (strlen s) ++ out.drop (32 + strlen s)
        length := (32 + strlen s) % 65536
        world := w.log (Event.output f H3cStatus.H3C_S_EAP_TYPE_IDENTITY) } := by
  have hV : VERSION_INFO.length = 32 := rfl
  have h1 : memcpy out 0 VERSION_INFO 32 = some (VERSION_INFO ++ out.drop 32) := by
    have := memcpy_at_end [] out VERSION_INFO 0 32 rfl (by simp [hV]) (by omega)
    simpa [← hV] using this
  have h2 : memcpy (VERSION_INFO ++ out.drop 32) 32 s (strlen s)
      = some (VERSION_INFO ++ s.take (strlen s) ++ out.drop (32 + strlen s)) := by
    have := memcpy_at_end VERSION_INFO (out.drop 32) s 32 (strlen s) hV (strlen_le s)
      (by simp; omega)
    simpa [List.drop_drop, Nat.add_comm] using this
  simp [h3c_send_id, output_eq w c f _ hc hf, World.log, hc, hu, hV, h1, h2]

theorem h3c_send_md5_eq (MD5 : MD5Fn) (w : World) (c : h3c_ctx_t) (f : Sink)
    (p u inp out : List Nat) (id in0 : Nat)
    (hc : w.ctx = some c) (hf : c.output = some f)
    (hp : c.password = some p) (hu : c.username = some u)
    (hin0 : inp[0]? = some in0) (hin : in0 ≤ (inp.drop 1).length)
    (hcap1 : 1 + strlen p % 256 + in0 ≤ out.length)
    (hcap2 : 17 + strlen u ≤ out.length) :
    h3c_send_md5 MD5 w id inp out = some
      { ret := EapolResult.EAPOL_OK
        out := 16 :: (MD5 (id :: (p.take (strlen p % 256) ++ (inp.drop 1).take in0))).val
                 ++ u.take (strlen u)
                 ++ ((p.take (strlen p % 256) ++ (inp.drop 1).take in0
                       ++ out.drop (1 + strlen p % 256 + in0)).drop (16 + strlen u))
        length := (1 + 16 + strlen u) % 65536
        world := w.log (Event.output f H3cStatus.H3C_S_EAP_TYPE_MD5) } := by
  obtain ⟨x, xs, rfl⟩ : ∃ x xs, out = x :: xs := by
    cases out with
    | nil => simp at hcap2
    | cons x xs => exact ⟨x, xs, rfl⟩
  simp only [List.length_cons] at hcap1 hcap2
  set L := strlen p % 256 with hL
  have hLp : L ≤ p.length := le_trans (Nat.mod_le _ _) (strlen_le p)
  have h1 : store (x :: xs) 0 id = some (id :: xs) := store_zero id x xs
  have h2 : memcpy (id :: xs) 1 p L = some (id :: (p.take L ++ xs.drop L)) := by
    have := memcpy_at_end [id] xs p 1 L rfl hLp (by omega)
    simpa using this
  have h3 : memcpy (id :: (p.take L ++ xs.drop L)) (1 + L) (inp.drop 1) in0
      = some (id :: (p.take L ++ (inp.drop 1).take in0 ++ xs.drop (L + in0))) := by
    have := memcpy_at_end (id :: p.take L) (xs.drop L) (inp.drop 1) (1 + L) in0
      (by simp only [List.length_cons, List.length_take, Nat.min_eq_left hLp]; omega) hin
      (by simp only [List.length_drop]; omega)
    simpa [List.drop_drop, Nat.add_comm] using this
  have h4 : (id :: (p.take L ++ (inp.drop 1).take in0 ++ xs.drop (L + in0))).take (1 + L + in0)
      = id :: (p.take L ++ (inp.drop 1).take in0) := by
    have hlen : (id :: (p.take L ++ (inp.drop 1).take in0)).length = 1 + L + in0 := by
      simp only [List.length_cons, List.length_append, List.length_take,
        Nat.min_eq_left hLp, Nat.min_eq_left hin]
      omega
    rw [← hlen]
    have : id :: (p.take L ++ (inp.drop 1).take in0 ++ xs.drop (L + in0))
        = (id :: (p.take L ++ (inp.drop 1).take in0)) ++ xs.drop (L + in0) := by simp
    rw [this, List.take_left]
  set T := p.take L ++ (inp.drop 1).take in0 with hT
  have hTlen : T.length = L + in0 := by
    simp only [hT, List.length_append, List.length_take, Nat.min_eq_left hLp, Nat.min_eq_left hin]
  have h5 : store (id :: (T ++ xs.drop (L + in0))) 0 16 = some (16 :: (T ++ xs.drop (L + in0))) :=
    store_zero _ _ _
  have hd := (MD5 (id :: T)).property
  have h6 : memcpy (16 :: (T ++ xs.drop (L + in0))) 1 (MD5 (id :: T)).val 16
      = some (16 :: ((MD5 (id :: T)).val ++ (T ++ xs.drop (L + in0)).drop 16)) := by
    have := memcpy_at_end [16] (T ++ xs.drop (L + in0)) (MD5 (id :: T)).val 1 16 rfl
      (by omega) (by simp only [List.length_append, List.length_drop, hTlen]; omega)
    simpa [List.take_of_length_le (le_of_eq hd)] using this
  have h7 : memcpy (16 :: ((MD5 (id :: T)).val ++ (T ++ xs.drop (L + in0)).drop 16)) (1 + 16) u
      (strlen u) = some (16 :: ((MD5 (id :: T)).val ++ u.take (strlen u)
        ++ (T ++ xs.drop (L + in0)).drop (16 + strlen u))) := by
    have := memcpy_at_end (16 :: (MD5 (id :: T)).val) ((T ++ xs.drop (L + in0)).drop 16) u
      (1 + 16) (strlen u) (by simp only [List.length_cons, hd]) (strlen_le u)
      (by simp only [List.length_append, List.length_drop, hTlen]; omega)
    simpa [List.drop_drop, Nat.add_comm] using this
  have hxs : (x :: xs).drop (1 + L + in0) = xs.drop (L + in0) := by
    rw [Nat.add_assoc, Nat.add_comm 1, List.drop_succ_cons]
  simp only [h3c_send_md5, output_eq w c f _ hc hf, World.log, hc, hp, hu, hin0, h1, ← hL, h2, h3,
    h4, h5, h6, h7, hxs, Option.bind_eq_bind, Option.some_bind, List.cons_append]


theorem take_append_nul (U t : List Nat) (n : Nat) (hn : n ≤ U.length) :
    (U ++ 0 :: t).take n = U.take n := by
  rw [List.take_append_of_le_length hn]

/-- The identity payload for a NUL-terminated username `U`. -/
theorem h3c_send_id_string (w : World) (c : h3c_ctx_t) (f : Sink) (U t out : List Nat)
    (hc : w.ctx = some c) (hf : c.output = some f) (hu : c.username = some (U ++ 0 :: t))
    (hU : ∀ b ∈ U, b ≠ 0) (hcap : 32 + U.length ≤ out.length) :
    h3c_send_id w out = some
      { ret := EapolResult.EAPOL_OK
        out := VERSION_INFO ++ U ++ out.drop (32 + U.length)
        length := (32 + U.length) % 65536
        world := w.log (Event.output f H3cStatus.H3C_S_EAP_TYPE_IDENTITY) } := by
  have hs := strlen_append_nul U t hU
  have := h3c_send_id_eq w c f (U ++ 0 :: t) out hc hf hu (by rw [hs]; exact hcap)
  rw [take_strlen_append_nul U t hU, hs] at this
  exact this

/-- The MD5 payload for NUL-terminated password `P` and username `U` and the
salt `S` in a length-prefixed input buffer. -/
theorem h3c_send_md5_string (MD5 : MD5Fn) (w : World) (c : h3c_ctx_t) (f : Sink)
    (P tp U tu S ti out : List Nat) (id : Nat)
    (hc : w.ctx = some c) (hf : c.output = some f)
    (hp : c.password = some (P ++ 0 :: tp)) (hP : ∀ b ∈ P, b ≠ 0)
    (hu : c.username = some (U ++ 0 :: tu)) (hU : ∀ b ∈ U, b ≠ 0)
    (hcap1 : 1 + P.length % 256 + S.length ≤ out.length)
    (hcap2 : 17 + U.length ≤ out.length) :
    h3c_send_md5 MD5 w id (S.length :: S ++ ti) out = some
      { ret := EapolResult.EAPOL_OK
        out := 16 :: (MD5 (id :: (P.take (P.length % 256) ++ S))).val ++ U
                 ++ ((P.take (P.length % 256) ++ S
                       ++ out.drop (1 + P.length % 256 + S.length)).drop (16 + U.length))
        length := (1 + 16 + U.length) % 65536
        world := w.log (Event.output f H3cStatus.H3C_S_EAP_TYPE_MD5) } := by
  have hsp := strlen_append_nul P tp hP
  have hsu := strlen_append_nul U tu hU
  have hS : ((S.length :: S ++ ti).drop 1).take S.length = S := by
    simp
  have hL : P.length % 256 ≤ P.length := Nat.mod_le _ _
  have := h3c_send_md5_eq MD5 w c f (P ++ 0 :: tp) (U ++ 0 :: tu) (S.length :: S ++ ti) out id
    S.length hc hf hp hu (by simp) (by simp) (by rw [hsp]; exact hcap1) (by rw [hsu]; exact hcap2)
  rw [take_strlen_append_nul U tu hU, hsp, hsu, hS, take_append_nul P tp _ hL] at this
  exact this


theorem tail_getElem? (id : Nat) (D U T R : List Nat) (n j : Nat) (hD : D.length = 16)
    (hn : U.length = n) (hj : 17 + n ≤ j) :
    (16 :: D ++ U ++ (T ++ R).drop (16 + n))[j]? = (id :: (T ++ R))[j]? := by
  obtain ⟨k, rfl⟩ : ∃ k, j = (17 + n) + k := ⟨j - (17 + n), by omega⟩
  have h1 : (16 :: D ++ U).length = 17 + n := by simp [hD, hn]; omega
  rw [← h1, List.getElem?_append_right (by omega)]
  simp only [h1, Nat.add_sub_cancel_left, List.getElem?_drop]
  have : 17 + n + k = (16 + n + k) + 1 := by omega
  rw [this, List.getElem?_cons_succ]

theorem payload_take (D U R : List Nat) (hD : D.length = 16) :
    (16 :: D ++ U ++ R).take (17 + U.length) = 16 :: D ++ U := by
  have h : (16 :: D ++ U).length = 17 + U.length := by simp [hD]; omega
  rw [← h, List.take_left]

theorem payload_length (D U T out : List Nat) (m : Nat) (hD : D.length = 16)
    (hT : T.length + 1 = m) (h1 : m ≤ out.length) (h2 : 17 + U.length ≤ out.length) :
    (16 :: D ++ U ++ (T ++ out.drop m).drop (16 + U.length)).length = out.length := by
  simp only [List.length_cons, List.length_append, List.length_drop, hD]
  omega

/-- C1 (amended): for a password of at most 255 bytes and an output buffer that
holds the transcript and the payload, `h3c_send_md5` leaves the byte 0x10, the
16 bytes of MD5(I ++ P ++ S) and the raw bytes of U at the start of the output
buffer, stores (1 + 16 + |U|) mod 2^16 in the reported length (which is
1 + 16 + |U| when |U| ≤ 65518), reports to the sink once and returns EAPOL_OK. -/
theorem h3c_send_md5_payload (MD5 : MD5Fn) (w : World) (c : h3c_ctx_t) (f : Sink)
    (P tp U tu S ti out : List Nat) (I : Nat)
    (hc : w.ctx = some c) (hf : c.output = some f)
    (hp : c.password = some (P ++ 0 :: tp)) (hP : ∀ b ∈ P, b ≠ 0) (hPlen : P.length ≤ 255)
    (hu : c.username = some (U ++ 0 :: tu)) (hU : ∀ b ∈ U, b ≠ 0) (_hne : U ≠ [])
    (_hS : S.length ≤ 255)
    (hcap1 : 1 + P.length + S.length ≤ out.length) (hcap2 : 1 + 16 + U.length ≤ out.length) :
    ∃ r, h3c_send_md5 MD5 w I (S.length :: S ++ ti) out = some r
      ∧ r.out.take (1 + 16 + U.length) = 0x10 :: (MD5 (I :: P ++ S)).val ++ U
      ∧ r.length = (1 + 16 + U.length) % 65536
      ∧ (U.length ≤ 65518 → r.length = 1 + 16 + U.length)
      ∧ r.ret = EapolResult.EAPOL_OK
      ∧ r.world = w.log (Event.output f H3cStatus.H3C_S_EAP_TYPE_MD5) := by
  have hL : P.length % 256 = P.length := Nat.mod_eq_of_lt (by omega)
  have h := h3c_send_md5_string MD5 w c f P tp U tu S ti out I hc hf hp hP hu hU
    (by rw [hL]; exact hcap1) (by omega)
  rw [hL, List.take_length] at h
  refine ⟨_, h, ?_, rfl, ?_, rfl, rfl⟩
  · have h17 : 1 + 16 + U.length = 17 + U.length := by omega
    rw [h17]
    exact payload_take _ U _ (MD5 (I :: (P ++ S))).property
  · intro hlen
    exact Nat.mod_eq_of_lt (by omega)

/-- C10: every write of `h3c_send_md5` lies below max(1 + L + S, 17 + |U|) with
L = |P| mod 256: an output buffer of that capacity makes the call defined, the
buffer keeps its length, bytes at or beyond the bound are unchanged, the
payload occupies indices 0 .. 16 + |U| with the digest taken over the
transcript I ++ P[0..L) ++ S, and when 1 + L + S > 17 + |U| the bytes from the
reported length up to the bound are the password and salt bytes of the
transcript. -/
theorem h3c_send_md5_frame (MD5 : MD5Fn) (w : World) (c : h3c_ctx_t) (f : Sink)
    (P tp U tu S ti out : List Nat) (I : Nat)
    (hc : w.ctx = some c) (hf : c.output = some f)
    (hp : c.password = some (P ++ 0 :: tp)) (hP : ∀ b ∈ P, b ≠ 0)
    (hu : c.username = some (U ++ 0 :: tu)) (hU : ∀ b ∈ U, b ≠ 0)
    (_hS : S.length ≤ 255)
    (hcap : max (1 + P.length % 256 + S.length) (17 + U.length) ≤ out.length) :
    ∃ r, h3c_send_md5 MD5 w I (S.length :: S ++ ti) out = some r
      ∧ r.out.length = out.length
      ∧ (∀ j, max (1 + P.length % 256 + S.length) (17 + U.length) ≤ j → r.out[j]? = out[j]?)
      ∧ r.out.take (17 + U.length)
          = 16 :: (MD5 (I :: (P.take (P.length % 256) ++ S))).val ++ U
      ∧ (∀ j, 17 + U.length ≤ j → j < 1 + P.length % 256 + S.length →
          r.length = 17 + U.length
          ∧ r.out[j]? = (I :: (P.take (P.length % 256) ++ S))[j]?) := by
  have hcap1 : 1 + P.length % 256 + S.length ≤ out.length := le_trans (le_max_left _ _) hcap
  have hcap2 : 17 + U.length ≤ out.length := le_trans (le_max_right _ _) hcap
  have h := h3c_send_md5_string MD5 w c f P tp U tu S ti out I hc hf hp hP hu hU hcap1 hcap2
  have hL : P.length % 256 ≤ P.length := Nat.mod_le _ _
  have hL2 : P.length % 256 < 256 := Nat.mod_lt _ (by decide)
  have hD := (MD5 (I :: (P.take (P.length % 256) ++ S))).property
  have hT : (P.take (P.length % 256) ++ S).length = P.length % 256 + S.length := by
    simp only [List.length_append, List.length_take, Nat.min_eq_left hL]
  have hidx : ∀ j, 17 + U.length ≤ j →
      (16 :: (MD5 (I :: (P.take (P.length % 256) ++ S))).val ++ U
        ++ ((P.take (P.length % 256) ++ S
              ++ out.drop (1 + P.length % 256 + S.length)).drop (16 + U.length)))[j]?
      = (I :: (P.take (P.length % 256) ++ S ++ out.drop (1 + P.length % 256 + S.length)))[j]? :=
    fun j hj => tail_getElem? I _ U _ _ U.length j hD rfl hj
  have hsplit : I :: (P.take (P.length % 256) ++ S ++ out.drop (1 + P.length % 256 + S.length))
      = (I :: (P.take (P.length % 256) ++ S)) ++ out.drop (1 + P.length % 256 + S.length) := by
    simp
  have hlen1 : (I :: (P.take (P.length % 256) ++ S)).length = 1 + P.length % 256 + S.length := by
    simp only [List.length_cons, hT]; omega
  refine ⟨_, h, ?_, ?_, ?_, ?_⟩
  · exact payload_length _ U _ out _ hD (by rw [hT]; omega) hcap1 hcap2
  · intro j hj
    have hj1 : 1 + P.length % 256 + S.length ≤ j := le_trans (le_max_left _ _) hj
    have hj2 : 17 + U.length ≤ j := le_trans (le_max_right _ _) hj
    show (_ : List Nat)[j]? = _
    rw [hidx j hj2, hsplit, List.getElem?_append_right (by omega), hlen1, List.getElem?_drop]
    congr 1
    omega
  · exact payload_take _ U _ hD
  · intro j hj hlt
    refine ⟨?_, ?_⟩
    · show (1 + 16 + U.length) % 65536 = 17 + U.length
      rw [Nat.mod_eq_of_lt (by omega)]
    · show (_ : List Nat)[j]? = _
      rw [hidx j hj, hsplit, List.getElem?_append_left (by omega)]


theorem replicate_nul_free (n : Nat) : ∀ b ∈ List.replicate n 97, b ≠ 0 := by
  intro b hb
  rw [List.eq_of_mem_replicate hb]
  decide

/-- C2 (amended): for a non-empty NUL-free username U and an output buffer of
at least 32 + |U| bytes, `h3c_send_id` writes the 32 bytes of VERSION_INFO
followed immediately by the bytes of U and nothing else, stores
(32 + |U|) mod 2^16 in the reported length (which is 32 + |U| when
|U| ≤ 65503), reports to the sink once and returns EAPOL_OK. -/
theorem h3c_send_id_payload (w : World) (c : h3c_ctx_t) (f : Sink) (U t out : List Nat)
    (hc : w.ctx = some c) (hf : c.output = some f) (hu : c.username = some (U ++ 0 :: t))
    (hU : ∀ b ∈ U, b ≠ 0) (_hne : U ≠ []) (hcap : 32 + U.length ≤ out.length) :
    VERSION_INFO
        = [0x06, 0x07] ++ "bjQ7SE8BZ3MqHhs3clMregcDY3Y=".toList.map Char.toNat ++ [0x20, 0x20]
      ∧ h3c_send_id w out = some
          { ret := EapolResult.EAPOL_OK
            out := VERSION_INFO ++ U ++ out.drop (32 + U.length)
            length := (32 + U.length) % 65536
            world := w.log (Event.output f H3cStatus.H3C_S_EAP_TYPE_IDENTITY) }
      ∧ (U.length ≤ 65503 → (32 + U.length) % 65536 = 32 + U.length) := by
  refine ⟨by decide, h3c_send_id_string w c f U t out hc hf hu hU hcap, ?_⟩
  intro hlen
  exact Nat.mod_eq_of_lt (by omega)

/-- C2, evaluated: username `ab`, a 40-byte buffer filled with 9. -/
theorem h3c_send_id_payload_witness :
    h3c_send_id (sampleWorld [97, 98] [112]) (List.replicate 40 9) = some
      { ret := EapolResult.EAPOL_OK
        out := VERSION_INFO ++ [97, 98] ++ List.replicate 6 9
        length := 34
        world := (sampleWorld [97, 98] [112]).log
          (Event.output 1 H3cStatus.H3C_S_EAP_TYPE_IDENTITY) } :=
  (h3c_send_id_payload (sampleWorld [97, 98] [112]) (sampleCtx [97, 98] [112]) 1 [97, 98] []
    (List.replicate 40 9) rfl rfl rfl (by decide) (by decide) (by decide)).2.1

/-- C2 as stated fails: with a username of 65504 bytes and a buffer of 65536
bytes the call is defined, the payload is complete, and the reported length is
0 instead of 32 + 65504. -/
theorem h3c_send_id_length_wraps :
    ∃ r, h3c_send_id (sampleWorld (List.replicate 65504 97) [112]) (List.replicate 65536 0)
          = some r
      ∧ r.out = VERSION_INFO ++ List.replicate 65504 97
      ∧ r.length = 0
      ∧ r.length ≠ 32 + (List.replicate 65504 97).length := by
  have h := h3c_send_id_string (sampleWorld (List.replicate 65504 97) [112])
    (sampleCtx (List.replicate 65504 97) [112]) 1 (List.replicate 65504 97) []
    (List.replicate 65536 0) rfl rfl rfl (replicate_nul_free 65504)
    (by rw [List.length_replicate, List.length_replicate])
  have hlen : (List.replicate 65504 97).length = 65504 := List.length_replicate _ _
  have hdrop : (List.replicate 65536 0).drop (32 + 65504) = ([] : List Nat) := by
    apply List.drop_of_length_le
    rw [List.length_replicate]
  rw [hlen, hdrop, List.append_nil] at h
  refine ⟨_, h, rfl, ?_, ?_⟩
  · show (32 + 65504) % 65536 = 0
    decide
  · show (32 + 65504) % 65536 ≠ 32 + (List.replicate 65504 97).length
    rw [hlen]
    decide


/-- C1, evaluated at the regression vector I = 0x01, P = `test`, S empty, with
username `u`, a 20-byte buffer and `sampleDigest` for the digest: the digest is
taken over the five bytes 01 74 65 73 74. -/
theorem h3c_send_md5_payload_witness :
    ∃ r, h3c_send_md5 sampleDigest (sampleWorld [117] [0x74, 0x65, 0x73, 0x74]) 0x01 [0]
          (List.replicate 20 0) = some r
      ∧ r.out.take 18 = 0x10 :: (sampleDigest [0x01, 0x74, 0x65, 0x73, 0x74]).val ++ [117]
      ∧ r.length = 18
      ∧ r.ret = EapolResult.EAPOL_OK :=
  match h3c_send_md5_payload sampleDigest (sampleWorld [117] [0x74, 0x65, 0x73, 0x74])
      (sampleCtx [117] [0x74, 0x65, 0x73, 0x74]) 1 [0x74, 0x65, 0x73, 0x74] [] [117] [] [] []
      (List.replicate 20 0) 0x01 rfl rfl rfl (by decide) (by decide) rfl (by decide) (by decide)
      (by decide) (by decide) (by decide) with
  | ⟨r, h1, h2, h3, _, h5, _⟩ => ⟨r, h1, h2, h3, h5⟩

/-- C1 as stated fails. With a password of 256 bytes the digest is taken over
the identifier byte alone, for every digest function, and so differs from the
digest of I ++ P ++ S for a digest function that tells the two apart; with a
username of 65519 bytes the reported length is 0 instead of 1 + 16 + 65519. -/
theorem h3c_send_md5_claim_fails :
    (∀ MD5 : MD5Fn, ∃ r,
        h3c_send_md5 MD5 (sampleWorld [117] (List.replicate 256 97)) 1 [0]
          (List.replicate 32 0) = some r
        ∧ r.out.take 18 = 16 :: (MD5 [1]).val ++ [117])
      ∧ (∃ r, h3c_send_md5 sampleDigest (sampleWorld [117] (List.replicate 256 97)) 1 [0]
          (List.replicate 32 0) = some r
        ∧ r.out.take 18 ≠ 16 :: (sampleDigest (1 :: List.replicate 256 97 ++ [])).val ++ [117])
      ∧ (∃ r, h3c_send_md5 sampleDigest (sampleWorld (List.replicate 65519 97) [112]) 1 [0]
          (List.replicate 65536 0) = some r
        ∧ r.length = 0
        ∧ r.length ≠ 1 + 16 + (List.replicate 65519 97).length) := by
  have key : ∀ MD5 : MD5Fn, ∃ r,
      h3c_send_md5 MD5 (sampleWorld [117] (List.replicate 256 97)) 1 [0]
        (List.replicate 32 0) = some r
      ∧ r.out.take 18 = 16 :: (MD5 [1]).val ++ [117] := by
    intro MD5
    have hlen : (List.replicate 256 97).length % 256 = 0 := by
      rw [List.length_replicate]
    have h := h3c_send_md5_string MD5 (sampleWorld [117] (List.replicate 256 97))
      (sampleCtx [117] (List.replicate 256 97)) 1 (List.replicate 256 97) [] [117] [] [] []
      (List.replicate 32 0) 1 rfl rfl rfl (replicate_nul_free 256) rfl (by decide)
      (by rw [hlen]; decide) (by decide)
    rw [hlen, List.take_zero] at h
    exact ⟨_, h, payload_take _ [117] _ (MD5 [1]).property⟩
  refine ⟨key, ?_, ?_⟩
  · obtain ⟨r, h1, h2⟩ := key sampleDigest
    refine ⟨r, h1, ?_⟩
    rw [h2]
    decide
  · have hlen : (List.replicate 65519 97).length = 65519 := List.length_replicate _ _
    have h := h3c_send_md5_string sampleDigest (sampleWorld (List.replicate 65519 97) [112])
      (sampleCtx (List.replicate 65519 97) [112]) 1 [112] [] (List.replicate 65519 97) [] [] []
      (List.replicate 65536 0) 1 rfl rfl rfl (by decide) rfl (replicate_nul_free 65519)
      (by rw [List.length_replicate]; decide)
      (by rw [List.length_replicate, List.length_replicate])
    rw [hlen] at h
    refine ⟨_, h, ?_, ?_⟩
    · show (1 + 16 + 65519) % 65536 = 0
      decide
    · show (1 + 16 + 65519) % 65536 ≠ 1 + 16 + (List.replicate 65519 97).length
      rw [hlen]
      decide

/-- C10, evaluated: a 20-byte password, username `u`, empty salt and a 24-byte
buffer filled with 255. The bound is 21; bytes 21 .. 23 are unchanged and
bytes 18 .. 20 hold password bytes. -/
theorem h3c_send_md5_frame_witness :
    ∃ r, h3c_send_md5 sampleDigest
          (sampleWorld [117] [1, 2, 3, 4, 5, 6, 7, 8, 9, 10, 11, 12, 13, 14, 15, 16, 17, 18, 19, 20])
          7 [0] (List.replicate 24 255) = some r
      ∧ r.out.length = 24
      ∧ (∀ j, 21 ≤ j → r.out[j]? = (List.replicate 24 255)[j]?)
      ∧ r.out.take 18 = 16 :: (sampleDigest [7, 1, 2, 3, 4, 5, 6, 7, 8, 9, 10, 11, 12, 13, 14, 15,
          16, 17, 18, 19, 20]).val ++ [117]
      ∧ (∀ j, 18 ≤ j → j < 21 → r.length = 18
          ∧ r.out[j]? = [7, 1, 2, 3, 4, 5, 6, 7, 8, 9, 10, 11, 12, 13, 14, 15, 16, 17, 18, 19,
              20][j]?) :=
  h3c_send_md5_frame sampleDigest
    (sampleWorld [117] [1, 2, 3, 4, 5, 6, 7, 8, 9, 10, 11, 12, 13, 14, 15, 16, 17, 18, 19, 20])
    (sampleCtx [117] [1, 2, 3, 4, 5, 6, 7, 8, 9, 10, 11, 12, 13, 14, 15, 16, 17, 18, 19, 20]) 1
    [1, 2, 3, 4, 5, 6, 7, 8, 9, 10, 11, 12, 13, 14, 15, 16, 17, 18, 19, 20] [] [117] [] [] []
    (List.replicate 24 255) 7 rfl rfl rfl (by decide) rfl (by decide) (by decide) (by decide)


/-! ## Initialisation and callbacks -/

theorem cstring_isEmpty (s : List Nat) : (cstring s).isEmpty = true ↔ strlen s = 0 := by
  cases s with
  | nil => simp [cstring, strlen]
  | cons b bs =>
    by_cases hb : b = 0
    · simp [cstring, strlen, hb]
    · simp [cstring, strlen, hb]

theorem missing_or_empty_some (s : List Nat) :
    missing_or_empty (some s) = true ↔ strlen s = 0 :=
  cstring_isEmpty s

/-- An accepted configuration has its three strings and its sink. -/
theorem valid_parameters (cfg : h3c_ctx_t) (h : invalid_parameters (some cfg) = false) :
    ∃ i u p f, cfg.interface = some i ∧ cfg.username = some u ∧ cfg.password = some p
      ∧ cfg.output = some f ∧ strlen i ≠ 0 ∧ strlen u ≠ 0 ∧ strlen p ≠ 0 := by
  obtain ⟨i, u, p, o⟩ := cfg
  cases i with
  | none => simp [invalid_parameters, missing_or_empty] at h
  | some i =>
    cases u with
    | none => simp [invalid_parameters, missing_or_empty] at h
    | some u =>
      cases p with
      | none => simp [invalid_parameters, missing_or_empty] at h
      | some p =>
        cases o with
        | none => simp [invalid_parameters, missing_or_empty] at h
        | some f =>
          simp only [invalid_parameters, Bool.or_eq_false_iff, Option.isNone_some] at h
          obtain ⟨⟨⟨hi, hu⟩, hp⟩, _⟩ := h
          refine ⟨i, u, p, f, rfl, rfl, rfl, rfl, ?_, ?_, ?_⟩
          · intro h0; rw [(missing_or_empty_some i).mpr h0] at hi; exact Bool.noConfusion hi
          · intro h0; rw [(missing_or_empty_some u).mpr h0] at hu; exact Bool.noConfusion hu
          · intro h0; rw [(missing_or_empty_some p).mpr h0] at hp; exact Bool.noConfusion hp

theorem h3c_init_invalid (eapol_init : eapol_ctx_t → EapolResult) (c : Option h3c_ctx_t)
    (w : World) (h : invalid_parameters c = true) :
    h3c_init eapol_init c w = (H3cStatus.H3C_E_INVALID_PARAMETERS, w) := by
  cases c with
  | none => rfl
  | some cfg =>
    obtain ⟨i, u, p, o⟩ := cfg
    cases i <;> cases u <;> cases p <;> cases o <;> try rfl
    rename_i i u p f
    simp only [invalid_parameters, Option.isNone_some, Bool.or_false, Bool.or_eq_true,
      missing_or_empty_some] at h
    have h2 : strlen i = 0 ∨ strlen u = 0 ∨ strlen p = 0 := by tauto
    simp [h3c_init, h2]

theorem h3c_init_valid (eapol_init : eapol_ctx_t → EapolResult) (cfg : h3c_ctx_t)
    (w : World) (h : invalid_parameters (some cfg) = false) :
    h3c_init eapol_init (some cfg) w
      = (if eapol_init (callback_table cfg.interface) ≠ EapolResult.EAPOL_OK
          then H3cStatus.H3C_E_EAPOL_INIT else H3cStatus.H3C_OK,
         { ctx := some cfg
           ec := callback_table cfg.interface
           handlers := w.handlers
           trace := w.trace ++ [Event.eapol_init (callback_table cfg.interface)] }) := by
  obtain ⟨i, u, p, f, hi, hu, hp, hf, h1, h2, h3⟩ := valid_parameters cfg h
  obtain ⟨ci, cu, cp, co⟩ := cfg
  simp only at hi hu hp hf
  subst hi hu hp hf
  by_cases he : eapol_init (callback_table (some i)) = EapolResult.EAPOL_OK
  · simp [h3c_init, h1, h2, h3, he, World.log]
  · simp [h3c_init, h1, h2, h3, he, World.log]

/-- C3: `h3c_init` returns H3C_E_INVALID_PARAMETERS exactly for the absent
configuration and the configurations with a missing or empty interface,
username or password or an absent sink, and then `eapol_init` is not called
and the state is unchanged; for every other configuration it stores the
configuration, calls `eapol_init` once with the callback table, and returns
H3C_OK when that call succeeds and H3C_E_EAPOL_INIT when it fails. -/
theorem h3c_init_result (eapol_init : eapol_ctx_t → EapolResult) (c : Option h3c_ctx_t)
    (w : World) :
    ((h3c_init eapol_init c w).1 = H3cStatus.H3C_E_INVALID_PARAMETERS
        ↔ invalid_parameters c = true)
      ∧ (invalid_parameters c = true → (h3c_init eapol_init c w).2 = w)
      ∧ (∀ cfg, c = some cfg → invalid_parameters c = false →
          (h3c_init eapol_init c w).2
              = { ctx := some cfg
                  ec := callback_table cfg.interface
                  handlers := w.handlers
                  trace := w.trace ++ [Event.eapol_init (callback_table cfg.interface)] }
            ∧ (eapol_init (callback_table cfg.interface) = EapolResult.EAPOL_OK →
                (h3c_init eapol_init c w).1 = H3cStatus.H3C_OK)
            ∧ (eapol_init (callback_table cfg.interface) ≠ EapolResult.EAPOL_OK →
                (h3c_init eapol_init c w).1 = H3cStatus.H3C_E_EAPOL_INIT)) := by
  refine ⟨⟨?_, ?_⟩, ?_, ?_⟩
  · intro h
    by_contra hne
    have hfalse : invalid_parameters c = false := by simpa using hne
    cases c with
    | none => simp [invalid_parameters] at hfalse
    | some cfg =>
      rw [h3c_init_valid eapol_init cfg w hfalse] at h
      by_cases he : eapol_init (callback_table cfg.interface) = EapolResult.EAPOL_OK
      · simp [he] at h
      · simp [he] at h
  · intro h
    rw [h3c_init_invalid eapol_init c w h]
  · intro h
    rw [h3c_init_invalid eapol_init c w h]
  · intro cfg hcfg h
    subst hcfg
    rw [h3c_init_valid eapol_init cfg w h]
    refine ⟨rfl, ?_, ?_⟩
    · intro he; simp [he]
    · intro he; simp [he]

/-- C4: in a session initialised from a configuration `c` with sink `f`, each
of the six callbacks calls `f` exactly once, with its own status code, and
changes nothing else of the process state; `h3c_eap_failure` returns
EAPOL_E_AUTH_FAILURE, which is not EAPOL_OK, and the five others return
EAPOL_OK. The two payload callbacks are defined when their buffers are large
enough. -/
theorem callbacks_report_once (eapol_init : eapol_ctx_t → EapolResult) (c : h3c_ctx_t)
    (f : Sink) (w0 w : World)
    (hinit : (h3c_init eapol_init (some c) w0).1 = H3cStatus.H3C_OK)
    (hc : w.ctx = some c) (hf : c.output = some f) :
    h3c_eap_response w
        = some (EapolResult.EAPOL_OK, w.log (Event.output f H3cStatus.H3C_S_EAP_RESPONSE))
      ∧ h3c_eap_success w
        = some (EapolResult.EAPOL_OK, w.log (Event.output f H3cStatus.H3C_S_EAP_SUCCESS))
      ∧ h3c_eap_failure w
        = some (EapolResult.EAPOL_E_AUTH_FAILURE,
            w.log (Event.output f H3cStatus.H3C_S_EAP_FAILURE))
      ∧ h3c_eap_unknown w
        = some (EapolResult.EAPOL_OK, w.log (Event.output f H3cStatus.H3C_S_EAP_UNKNOWN))
      ∧ EapolResult.EAPOL_E_AUTH_FAILURE ≠ EapolResult.EAPOL_OK
      ∧ ∃ u p, c.username = some u ∧ c.password = some p
        ∧ (∀ out, 32 + strlen u ≤ out.length →
            ∃ r, h3c_send_id w out = some r ∧ r.ret = EapolResult.EAPOL_OK
              ∧ r.world = w.log (Event.output f H3cStatus.H3C_S_EAP_TYPE_IDENTITY))
        ∧ (∀ (MD5 : MD5Fn) (id in0 : Nat) (inp out : List Nat),
            inp[0]? = some in0 → in0 ≤ (inp.drop 1).length →
            1 + strlen p % 256 + in0 ≤ out.length → 17 + strlen u ≤ out.length →
            ∃ r, h3c_send_md5 MD5 w id inp out = some r ∧ r.ret = EapolResult.EAPOL_OK
              ∧ r.world = w.log (Event.output f H3cStatus.H3C_S_EAP_TYPE_MD5)) := by
  have hvalid : invalid_parameters (some c) = false := by
    by_contra hne
    have ht : invalid_parameters (some c) = true := by simpa using hne
    rw [h3c_init_invalid eapol_init (some c) w0 ht] at hinit
    exact H3cStatus.noConfusion hinit
  obtain ⟨i, u, p, g, _, hu, hp, _, _, _, _⟩ := valid_parameters c hvalid
  refine ⟨?_, ?_, ?_, ?_, by decide, u, p, hu, hp, ?_, ?_⟩
  · simp [h3c_eap_response, output_eq w c f _ hc hf]
  · simp [h3c_eap_success, output_eq w c f _ hc hf]
  · simp [h3c_eap_failure, output_eq w c f _ hc hf]
  · simp [h3c_eap_unknown, output_eq w c f _ hc hf]
  · intro out hcap
    exact ⟨_, h3c_send_id_eq w c f u out hc hf hu hcap, rfl, rfl⟩
  · intro MD5 id in0 inp out h0 h1 h2 h3
    exact ⟨_, h3c_send_md5_eq MD5 w c f p u inp out id in0 hc hf hp hu h0 h1 h2 h3, rfl, rfl⟩

/-- C4, evaluated: the session of `sampleWorld`, whose sink is at address 1. -/
theorem callbacks_report_once_witness :
    h3c_eap_failure (sampleWorld [117] [112])
        = some (EapolResult.EAPOL_E_AUTH_FAILURE,
            (sampleWorld [117] [112]).log (Event.output 1 H3cStatus.H3C_S_EAP_FAILURE))
      ∧ h3c_eap_success (sampleWorld [117] [112])
        = some (EapolResult.EAPOL_OK,
            (sampleWorld [117] [112]).log (Event.output 1 H3cStatus.H3C_S_EAP_SUCCESS)) :=
  have h := callbacks_report_once (fun _ => EapolResult.EAPOL_OK) (sampleCtx [117] [112]) 1
    World.start (sampleWorld [117] [112]) (by decide) rfl rfl
  ⟨h.2.2.1, h.2.1⟩


/-! ## The front end -/

theorem h3c_init_no_sink (eapol_init : eapol_ctx_t → EapolResult)
    (interface username password : Option (List Nat)) (w : World) :
    h3c_init eapol_init (some ⟨interface, username, password, none⟩) w
      = (H3cStatus.H3C_E_INVALID_PARAMETERS, w) := by
  cases interface <;> cases username <;> cases password <;> rfl

/-- Whatever the command line, the session that `main` builds is rejected. -/
theorem start_session_fails (env : MainEnv) (interface username password : Option (List Nat))
    (w : World) :
    start_session env interface username password w
      = Outcome.ret ExitStatus.EXIT_FAILURE
          (w.log (Event.fprintf 2 "Ethernet interface initialize fail.\n")) := by
  simp [start_session, h3c_init_no_sink]

/-- C5 fails on the code: for the command line `h3c -u user -p pass`, run as
root with an engine that accepts every call, `h3c_init` rejects the
configuration that `main` builds (its sink is null) with
H3C_E_INVALID_PARAMETERS, and `main` prints its failure message and returns
EXIT_FAILURE without a call to `eapol_init` or to `h3c_run`; and so does the
end of `main` for every interface, username and password. -/
theorem main_rejects_own_configuration :
    h3c_init sampleMainEnv.eapol_init
        (some ⟨some en0, some [117, 115, 101, 114, 0], some [112, 97, 115, 115, 0], none⟩)
        World.start
      = (H3cStatus.H3C_E_INVALID_PARAMETERS, World.start)
    ∧ main sampleMainEnv World.start
      = Outcome.ret ExitStatus.EXIT_FAILURE
          { ctx := none
            ec := World.start.ec
            handlers := []
            trace :=
              [Event.fprintf 1 "h3c %s b%s : Copyright (c) 2018 Tommy Lau <tommy@gen-new.com>\n",
               Event.fprintf 1 "A command line tool for H3C 802.1X authentication\n\n",
               Event.geteuid,
               Event.fprintf 2 "Ethernet interface initialize fail.\n"] }
    ∧ ∀ (env : MainEnv) (interface username password : Option (List Nat)) (w : World),
        start_session env interface username password w
          = Outcome.ret ExitStatus.EXIT_FAILURE
              (w.log (Event.fprintf 2 "Ethernet interface initialize fail.\n")) :=
  ⟨rfl, rfl, start_session_fails⟩

/-! ## The dispatch loop -/

theorem deliver_cases (sig : Signal) (w : World) :
    deliver sig w = none
      ∨ deliver sig w = some (Outcome.exit ExitStatus.EXIT_SUCCESS (h3c_cleanup w))
      ∨ deliver sig w = some (Outcome.killed sig w) := by
  unfold deliver
  cases w.disposition sig
  · cases sig <;> simp
  · simp
  · simp [h3c_signal_handler]

theorem dispatch_loop_frame (stimuli : List Stimulus) :
    ∀ w : World, ∃ w1 tail, (dispatch_loop stimuli w).world = some w1
      ∧ w1.ctx = w.ctx ∧ w1.ec = w.ec ∧ w1.handlers = w.handlers
      ∧ w1.trace = w.trace ++ tail ∧ (∀ e ∈ tail, loop_event e)
      ∧ ∀ a w2, dispatch_loop stimuli w ≠ Outcome.ret a w2 := by
  induction stimuli with
  | nil =>
    intro w
    exact ⟨w, [], rfl, rfl, rfl, rfl, by simp, by simp, by simp [dispatch_loop]⟩
  | cons s rest ih =>
    intro w
    have hstep : ∀ w0 : World, w0.ctx = w.ctx → w0.ec = w.ec → w0.handlers = w.handlers →
        (∃ t0, w0.trace = w.trace ++ t0 ∧ ∀ e ∈ t0, loop_event e) →
        ∃ w1 tail, (dispatch_loop rest w0).world = some w1
          ∧ w1.ctx = w.ctx ∧ w1.ec = w.ec ∧ w1.handlers = w.handlers
          ∧ w1.trace = w.trace ++ tail ∧ (∀ e ∈ tail, loop_event e)
          ∧ ∀ a w2, dispatch_loop rest w0 ≠ Outcome.ret a w2 := by
      intro w0 h1 h2 h3 ⟨t0, h4, h5⟩
      obtain ⟨w1, tail, g0, g1, g2, g3, g4, g5, g6⟩ := ih w0
      refine ⟨w1, t0 ++ tail, g0, g1.trans h1, g2.trans h2, g3.trans h3, ?_, ?_, g6⟩
      · rw [g4, h4, List.append_assoc]
      · intro e he
        rcases List.mem_append.mp he with h | h
        · exact h5 e h
        · exact g5 e h
    have hdisp : ∃ t0, (w.log Event.eapol_dispatcher).trace = w.trace ++ t0
        ∧ ∀ e ∈ t0, loop_event e :=
      ⟨[Event.eapol_dispatcher], rfl, by simp [loop_event]⟩
    have hexit : ∀ (st : ExitStatus) (w0 : World), w0.ctx = w.ctx → w0.ec = w.ec →
        w0.handlers = w.handlers → (∃ t0, w0.trace = w.trace ++ t0 ∧ ∀ e ∈ t0, loop_event e) →
        ∃ w1 tail, (Outcome.exit st w0 : Outcome Unit).world = some w1
          ∧ w1.ctx = w.ctx ∧ w1.ec = w.ec ∧ w1.handlers = w.handlers
          ∧ w1.trace = w.trace ++ tail ∧ (∀ e ∈ tail, loop_event e)
          ∧ ∀ a w2, (Outcome.exit st w0 : Outcome Unit) ≠ Outcome.ret a w2 := by
      intro st w0 h1 h2 h3 ⟨t0, h4, h5⟩
      exact ⟨w0, t0, rfl, h1, h2, h3, h4, h5, by simp⟩
    have hkill : ∀ (sig : Signal) (w0 : World), w0.ctx = w.ctx → w0.ec = w.ec →
        w0.handlers = w.handlers → (∃ t0, w0.trace = w.trace ++ t0 ∧ ∀ e ∈ t0, loop_event e) →
        ∃ w1 tail, (Outcome.killed sig w0 : Outcome Unit).world = some w1
          ∧ w1.ctx = w.ctx ∧ w1.ec = w.ec ∧ w1.handlers = w.handlers
          ∧ w1.trace = w.trace ++ tail ∧ (∀ e ∈ tail, loop_event e)
          ∧ ∀ a w2, (Outcome.killed sig w0 : Outcome Unit) ≠ Outcome.ret a w2 := by
      intro sig w0 h1 h2 h3 ⟨t0, h4, h5⟩
      exact ⟨w0, t0, rfl, h1, h2, h3, h4, h5, by simp⟩
    have hclean : ∀ w0 : World, (∃ t0, w0.trace = w.trace ++ t0 ∧ ∀ e ∈ t0, loop_event e) →
        ∃ t0, (h3c_cleanup w0).trace = w.trace ++ t0 ∧ ∀ e ∈ t0, loop_event e := by
      intro w0 ⟨t0, h4, h5⟩
      refine ⟨t0 ++ [Event.eapol_logoff, Event.eapol_cleanup], ?_, ?_⟩
      · simp [h3c_cleanup, World.log, h4]
      · intro e he
        rcases List.mem_append.mp he with h | h
        · exact h5 e h
        · simp at h
          rcases h with h | h <;> simp [loop_event, h]
    cases s with
    | dispatched r =>
      by_cases hr : r = EapolResult.EAPOL_OK
      · simp only [dispatch_loop, hr, ne_eq, not_true_eq_false, if_false]
        exact hstep _ rfl rfl rfl hdisp
      · simp only [dispatch_loop, hr, ne_eq, not_false_eq_true, if_true]
        exact hexit _ _ rfl rfl rfl hdisp
    | signalled sig =>
      simp only [dispatch_loop]
      rcases deliver_cases sig w with h | h | h
      · rw [h]; exact hstep w rfl rfl rfl ⟨[], by simp, by simp⟩
      · rw [h]; exact hexit _ _ rfl rfl rfl (hclean w ⟨[], by simp, by simp⟩)
      · rw [h]; exact hkill _ _ rfl rfl rfl ⟨[], by simp, by simp⟩
    | interrupted sig r =>
      simp only [dispatch_loop]
      rcases deliver_cases sig (w.log Event.eapol_dispatcher) with h | h | h
      · rw [h]
        by_cases hr : r = EapolResult.EAPOL_OK
        · simp only [hr, ne_eq, not_true_eq_false, if_false]
          exact hstep _ rfl rfl rfl hdisp
        · simp only [hr, ne_eq, not_false_eq_true, if_true]
          exact hexit _ _ rfl rfl rfl hdisp
      · rw [h]; exact hexit _ _ rfl rfl rfl (hclean _ hdisp)
      · rw [h]; exact hkill _ _ rfl rfl rfl hdisp


theorem h3c_run_started (stimuli : List Stimulus) (w : World) (c : h3c_ctx_t) (f : Sink)
    (hc : w.ctx = some c) (hf : c.output = some f) :
    h3c_run EapolResult.EAPOL_OK stimuli w = dispatch_loop stimuli (dispatching w f 0) := by
  simp [h3c_run, output_eq w c f _ hc hf, World.log, World.signal, dispatching]

theorem h3c_run_start_failed (eapol_start : EapolResult) (stimuli : List Stimulus) (w : World)
    (c : h3c_ctx_t) (f : Sink) (hc : w.ctx = some c) (hf : c.output = some f)
    (hs : eapol_start ≠ EapolResult.EAPOL_OK) :
    h3c_run eapol_start stimuli w = Outcome.exit ExitStatus.EXIT_FAILURE
      { ctx := w.ctx
        ec := w.ec
        handlers := w.handlers
        trace := w.trace ++ [Event.output f H3cStatus.H3C_S_EAP_START, Event.eapol_start,
          Event.output f H3cStatus.H3C_E_EAPOL_START] } := by
  have h2 : output ((w.log (Event.output f H3cStatus.H3C_S_EAP_START)).log Event.eapol_start)
      H3cStatus.H3C_E_EAPOL_START
      = some (((w.log (Event.output f H3cStatus.H3C_S_EAP_START)).log Event.eapol_start).log
          (Event.output f H3cStatus.H3C_E_EAPOL_START)) :=
    output_eq _ c f _ hc hf
  simp only [h3c_run, output_eq w c f _ hc hf, h2, hs, ne_eq, not_false_eq_true, if_true]
  simp [World.log]

theorem dispatch_loop_ok (k : Nat) : ∀ w : World,
    dispatch_loop (List.replicate k (Stimulus.dispatched EapolResult.EAPOL_OK)) w
      = Outcome.pending
          { ctx := w.ctx, ec := w.ec, handlers := w.handlers
            trace := w.trace ++ List.replicate k Event.eapol_dispatcher } := by
  induction k with
  | zero => intro w; simp [dispatch_loop]
  | succ k ih =>
    intro w
    simp [List.replicate_succ, dispatch_loop, ih, World.log]

theorem dispatch_loop_append (pre rest : List Stimulus) : ∀ w wr : World,
    dispatch_loop pre w = Outcome.pending wr →
    dispatch_loop (pre ++ rest) w = dispatch_loop rest wr := by
  induction pre with
  | nil =>
    intro w wr h
    simp only [dispatch_loop, Outcome.pending.injEq] at h
    simp [h]
  | cons s pre ih =>
    intro w wr h
    cases s with
    | dispatched r =>
      by_cases hr : r = EapolResult.EAPOL_OK
      · simp only [dispatch_loop, hr, ne_eq, not_true_eq_false, if_false] at h
        simp only [List.cons_append, dispatch_loop, hr, ne_eq, not_true_eq_false, if_false]
        exact ih _ _ h
      · simp [dispatch_loop, hr] at h
    | signalled sig =>
      simp only [dispatch_loop] at h
      simp only [List.cons_append, dispatch_loop]
      rcases deliver_cases sig w with hd | hd | hd
      · rw [hd] at h ⊢; exact ih _ _ h
      · rw [hd] at h; simp at h
      · rw [hd] at h; simp at h
    | interrupted sig r =>
      simp only [dispatch_loop] at h
      simp only [List.cons_append, dispatch_loop]
      rcases deliver_cases sig (w.log Event.eapol_dispatcher) with hd | hd | hd
      · rw [hd] at h ⊢
        by_cases hr : r = EapolResult.EAPOL_OK
        · simp only [hr, ne_eq, not_true_eq_false, if_false] at h ⊢
          exact ih _ _ h
        · simp [hr] at h
      · rw [hd] at h; simp at h
      · rw [hd] at h; simp at h

theorem dispatch_loop_pending (pre : List Stimulus) (w wr : World)
    (h : dispatch_loop pre w = Outcome.pending wr) :
    wr.ctx = w.ctx ∧ wr.ec = w.ec ∧ wr.handlers = w.handlers := by
  obtain ⟨w1, tail, g0, g1, g2, g3, _, _, _⟩ := dispatch_loop_frame pre w
  rw [h] at g0
  simp only [Outcome.world, Option.some.injEq] at g0
  subst g0
  exact ⟨g1, g2, g3⟩

/-- Every sequence of dispatcher results is a run of successes, alone or
followed by a first result that is not a success. -/
theorem results_split (results : List EapolResult) :
    (∃ k, results = List.replicate k EapolResult.EAPOL_OK)
      ∨ ∃ k r rest, r ≠ EapolResult.EAPOL_OK
          ∧ results = List.replicate k EapolResult.EAPOL_OK ++ r :: rest := by
  induction results with
  | nil => exact Or.inl ⟨0, rfl⟩
  | cons x xs ih =>
    by_cases hx : x = EapolResult.EAPOL_OK
    · subst hx
      rcases ih with ⟨k, hk⟩ | ⟨k, r, rest, hr, hk⟩
      · exact Or.inl ⟨k + 1, by rw [hk, List.replicate_succ]⟩
      · exact Or.inr ⟨k + 1, r, rest, hr, by rw [hk, List.replicate_succ, List.cons_append]⟩
    · exact Or.inr ⟨0, x, xs, hx, rfl⟩

/-- C6: `h3c_run` first reports H3C_S_EAP_START to the sink and calls
`eapol_start`. If that call fails, it reports H3C_E_EAPOL_START once and exits
with EXIT_FAILURE: no dispatcher call was made and the signal dispositions are
unchanged. If it succeeds, the two handlers are installed and everything that
follows in the trace is a call of the dispatcher, of `eapol_logoff` or of
`eapol_cleanup`: H3C_E_EAPOL_START is never reported. -/
theorem h3c_run_start (eapol_start : EapolResult) (stimuli : List Stimulus) (w : World)
    (c : h3c_ctx_t) (f : Sink) (hc : w.ctx = some c) (hf : c.output = some f) :
    (eapol_start ≠ EapolResult.EAPOL_OK →
        h3c_run eapol_start stimuli w = Outcome.exit ExitStatus.EXIT_FAILURE
          { ctx := w.ctx
            ec := w.ec
            handlers := w.handlers
            trace := w.trace ++ [Event.output f H3cStatus.H3C_S_EAP_START, Event.eapol_start,
              Event.output f H3cStatus.H3C_E_EAPOL_START] })
      ∧ (eapol_start = EapolResult.EAPOL_OK →
          ∃ w1 tail, (h3c_run eapol_start stimuli w).world = some w1
            ∧ w1.trace = w.trace
                ++ [Event.output f H3cStatus.H3C_S_EAP_START, Event.eapol_start,
                    Event.signal Signal.SIGINT Handler.h3c_signal_handler,
                    Event.signal Signal.SIGTERM Handler.h3c_signal_handler]
                ++ tail
            ∧ (∀ e ∈ tail, loop_event e)
            ∧ Event.output f H3cStatus.H3C_E_EAPOL_START ∉ tail) := by
  refine ⟨h3c_run_start_failed eapol_start stimuli w c f hc hf, ?_⟩
  intro hs
  subst hs
  rw [h3c_run_started stimuli w c f hc hf]
  obtain ⟨w1, tail, g0, _, _, _, g4, g5, _⟩ := dispatch_loop_frame stimuli (dispatching w f 0)
  refine ⟨w1, tail, g0, ?_, g5, ?_⟩
  · rw [g4]; simp [dispatching]
  · intro hmem
    have := g5 _ hmem
    simp [loop_event] at this

/-- C6, evaluated: a failing engine start, then a successful one followed by
two dispatcher calls. -/
theorem h3c_run_start_witness :
    h3c_run (EapolResult.other 1) [] (sampleWorld [117] [112])
        = Outcome.exit ExitStatus.EXIT_FAILURE
            { ctx := some (sampleCtx [117] [112])
              ec := callback_table (some en0)
              handlers := []
              trace := [Event.output 1 H3cStatus.H3C_S_EAP_START, Event.eapol_start,
                Event.output 1 H3cStatus.H3C_E_EAPOL_START] }
      ∧ ∃ w1 tail, (h3c_run EapolResult.EAPOL_OK
            [Stimulus.dispatched EapolResult.EAPOL_OK,
             Stimulus.dispatched EapolResult.EAPOL_OK] (sampleWorld [117] [112])).world = some w1
          ∧ w1.trace = [] ++ [Event.output 1 H3cStatus.H3C_S_EAP_START, Event.eapol_start,
                Event.signal Signal.SIGINT Handler.h3c_signal_handler,
                Event.signal Signal.SIGTERM Handler.h3c_signal_handler] ++ tail
          ∧ (∀ e ∈ tail, loop_event e)
          ∧ Event.output 1 H3cStatus.H3C_E_EAPOL_START ∉ tail :=
  ⟨(h3c_run_start (EapolResult.other 1) [] (sampleWorld [117] [112]) (sampleCtx [117] [112]) 1
      rfl rfl).1 (by decide),
   (h3c_run_start EapolResult.EAPOL_OK
      [Stimulus.dispatched EapolResult.EAPOL_OK, Stimulus.dispatched EapolResult.EAPOL_OK]
      (sampleWorld [117] [112]) (sampleCtx [117] [112]) 1 rfl rfl).2 rfl⟩

/-- C7: after a successful `eapol_start`, for every sequence of dispatcher
results: while the results are EAPOL_OK the loop keeps dispatching (after k
such results the process is still in the loop, with k dispatcher calls); at
the first result that is not EAPOL_OK, at index k, the process exits with
EXIT_FAILURE after exactly k + 1 dispatcher calls, whatever that result and
whatever follows; `h3c_run` never returns to its caller; and every sequence
of results has one of these two forms. -/
theorem h3c_run_dispatch (w : World) (c : h3c_ctx_t) (f : Sink)
    (hc : w.ctx = some c) (hf : c.output = some f) :
    (∀ k : Nat,
        h3c_run EapolResult.EAPOL_OK
            ((List.replicate k EapolResult.EAPOL_OK).map Stimulus.dispatched) w
          = Outcome.pending (dispatching w f k))
      ∧ (∀ (k : Nat) (r : EapolResult) (rest : List EapolResult), r ≠ EapolResult.EAPOL_OK →
          h3c_run EapolResult.EAPOL_OK
              ((List.replicate k EapolResult.EAPOL_OK ++ r :: rest).map Stimulus.dispatched) w
            = Outcome.exit ExitStatus.EXIT_FAILURE (dispatching w f (k + 1)))
      ∧ (∀ (eapol_start : EapolResult) (stimuli : List Stimulus) (a : Unit) (w1 : World),
          h3c_run eapol_start stimuli w ≠ Outcome.ret a w1)
      ∧ (∀ results : List EapolResult,
          (∃ k, results = List.replicate k EapolResult.EAPOL_OK)
            ∨ ∃ k r rest, r ≠ EapolResult.EAPOL_OK
                ∧ results = List.replicate k EapolResult.EAPOL_OK ++ r :: rest) := by
  have hok : ∀ k : Nat, dispatch_loop
      ((List.replicate k EapolResult.EAPOL_OK).map Stimulus.dispatched) (dispatching w f 0)
      = Outcome.pending (dispatching w f k) := by
    intro k
    rw [List.map_replicate, dispatch_loop_ok]
    simp [dispatching]
  refine ⟨?_, ?_, ?_, results_split⟩
  · intro k
    rw [h3c_run_started _ w c f hc hf]
    exact hok k
  · intro k r rest hr
    rw [h3c_run_started _ w c f hc hf, List.map_append,
      dispatch_loop_append _ _ _ _ (hok k)]
    simp [dispatch_loop, hr, dispatching, World.log, List.replicate_succ']
  · intro eapol_start stimuli a w1
    by_cases hs : eapol_start = EapolResult.EAPOL_OK
    · subst hs
      rw [h3c_run_started _ w c f hc hf]
      obtain ⟨_, _, _, _, _, _, _, _, g⟩ := dispatch_loop_frame stimuli (dispatching w f 0)
      exact g a w1
    · rw [h3c_run_start_failed eapol_start stimuli w c f hc hf hs]
      simp

/-- C7, evaluated: two successful dispatches and then the authentication
failure that `h3c_eap_failure` produces; the process exits with EXIT_FAILURE
after three dispatcher calls. -/
theorem h3c_run_dispatch_witness :
    h3c_run EapolResult.EAPOL_OK
        [Stimulus.dispatched EapolResult.EAPOL_OK, Stimulus.dispatched EapolResult.EAPOL_OK,
         Stimulus.dispatched EapolResult.EAPOL_E_AUTH_FAILURE,
         Stimulus.dispatched EapolResult.EAPOL_OK] (sampleWorld [117] [112])
      = Outcome.exit ExitStatus.EXIT_FAILURE (dispatching (sampleWorld [117] [112]) 1 3) :=
  (h3c_run_dispatch (sampleWorld [117] [112]) (sampleCtx [117] [112]) 1 rfl rfl).2.1 2
    EapolResult.EAPOL_E_AUTH_FAILURE [EapolResult.EAPOL_OK] (by decide)

/-- C8: when SIGINT or SIGTERM is delivered to a session that is in its
dispatch loop (after `h3c_run` has installed its handlers), between two
dispatcher calls or while a dispatcher call blocks, the process calls
`eapol_logoff` once, then `eapol_cleanup` once, and exits with EXIT_SUCCESS;
nothing is called after that, whatever the outside would have answered. -/
theorem signal_shutdown (pre rest : List Stimulus) (sig : Signal) (r : EapolResult)
    (w wr : World) (hsig : sig = Signal.SIGINT ∨ sig = Signal.SIGTERM)
    (hrun : h3c_run EapolResult.EAPOL_OK pre w = Outcome.pending wr) :
    h3c_run EapolResult.EAPOL_OK (pre ++ Stimulus.signalled sig :: rest) w
        = Outcome.exit ExitStatus.EXIT_SUCCESS
            { ctx := wr.ctx, ec := wr.ec, handlers := wr.handlers
              trace := wr.trace ++ [Event.eapol_logoff, Event.eapol_cleanup] }
      ∧ h3c_run EapolResult.EAPOL_OK (pre ++ Stimulus.interrupted sig r :: rest) w
        = Outcome.exit ExitStatus.EXIT_SUCCESS
            { ctx := wr.ctx, ec := wr.ec, handlers := wr.handlers
              trace := wr.trace
                ++ [Event.eapol_dispatcher, Event.eapol_logoff, Event.eapol_cleanup] } := by
  obtain ⟨c, f, hc, hf⟩ : ∃ c f, w.ctx = some c ∧ c.output = some f := by
    unfold h3c_run output at hrun
    cases hctx : w.ctx with
    | none => simp [hctx] at hrun
    | some c =>
      cases hout : c.output with
      | none => simp [hctx, hout] at hrun
      | some f => exact ⟨c, f, rfl, hout⟩
  rw [h3c_run_started _ w c f hc hf] at hrun
  obtain ⟨_, _, hh⟩ := dispatch_loop_pending pre _ wr hrun
  have hdisp : ∀ w0 : World, w0.handlers = wr.handlers →
      deliver sig w0 = some (Outcome.exit ExitStatus.EXIT_SUCCESS (h3c_cleanup w0)) := by
    intro w0 h0
    have : w0.disposition sig = Handler.h3c_signal_handler := by
      rcases hsig with h | h <;> subst h <;>
        simp [World.disposition, h0, hh, dispatching, List.find?]
    simp [deliver, this, h3c_signal_handler]
  constructor
  · rw [h3c_run_started _ w c f hc hf, dispatch_loop_append _ _ _ _ hrun]
    simp [dispatch_loop, hdisp wr rfl, h3c_cleanup, World.log]
  · rw [h3c_run_started _ w c f hc hf, dispatch_loop_append _ _ _ _ hrun]
    have hd := hdisp (wr.log Event.eapol_dispatcher) rfl
    simp only [World.log] at hd
    simp [dispatch_loop, hd, h3c_cleanup, World.log]

/-- C8, evaluated: SIGTERM after two dispatcher calls; the dispatcher result
that would have followed is never asked for. -/
theorem signal_shutdown_witness :
    h3c_run EapolResult.EAPOL_OK
        [Stimulus.dispatched EapolResult.EAPOL_OK, Stimulus.dispatched EapolResult.EAPOL_OK,
         Stimulus.signalled Signal.SIGTERM, Stimulus.dispatched EapolResult.EAPOL_OK]
        (sampleWorld [117] [112])
      = Outcome.exit ExitStatus.EXIT_SUCCESS
          { ctx := some (sampleCtx [117] [112])
            ec := callback_table (some en0)
            handlers := [(Signal.SIGTERM, Handler.h3c_signal_handler),
              (Signal.SIGINT, Handler.h3c_signal_handler)]
            trace := [Event.output 1 H3cStatus.H3C_S_EAP_START, Event.eapol_start,
              Event.signal Signal.SIGINT Handler.h3c_signal_handler,
              Event.signal Signal.SIGTERM Handler.h3c_signal_handler,
              Event.eapol_dispatcher, Event.eapol_dispatcher,
              Event.eapol_logoff, Event.eapol_cleanup] } :=
  (signal_shutdown
    [Stimulus.dispatched EapolResult.EAPOL_OK, Stimulus.dispatched EapolResult.EAPOL_OK]
    [Stimulus.dispatched EapolResult.EAPOL_OK] Signal.SIGTERM EapolResult.EAPOL_OK
    (sampleWorld [117] [112]) (dispatching (sampleWorld [117] [112]) 1 2)
    (Or.inr rfl) rfl).1


/-! ## Daemon supervision -/

theorem h3c_run_no_return (eapol_start : EapolResult) (stimuli : List Stimulus) (w : World)
    (a : Unit) (w1 : World) : h3c_run eapol_start stimuli w ≠ Outcome.ret a w1 := by
  unfold h3c_run
  cases h1 : output w H3cStatus.H3C_S_EAP_START with
  | none => simp
  | some w2 =>
    by_cases hs : eapol_start = EapolResult.EAPOL_OK
    · simp only [hs, ne_eq, not_true_eq_false, if_false]
      obtain ⟨_, _, _, _, _, _, _, _, g⟩ := dispatch_loop_frame stimuli
        (((w2.log Event.eapol_start).signal Signal.SIGINT Handler.h3c_signal_handler).signal
          Signal.SIGTERM Handler.h3c_signal_handler)
      exact g a w1
    · simp only [hs, ne_eq, not_false_eq_true, if_true]
      cases output (w2.log Event.eapol_start) H3cStatus.H3C_E_EAPOL_START <;> simp

theorem wait_loop_exit (pid : Int) (final : WaitResult) (more : List WaitResult)
    (hfinal : final.ret = pid ∨ final.ret = -1) (stalls : List WaitResult) :
    ∀ w : World, (∀ r ∈ stalls, r.ret ≠ pid ∧ r.ret ≠ -1) →
      wait_loop pid (stalls ++ final :: more) w
        = ({ ctx := w.ctx, ec := w.ec, handlers := w.handlers
             trace := w.trace ++ wait_events pid (stalls ++ [final]) }, true) := by
  induction stalls with
  | nil =>
    intro w _
    have hcond : ¬ (final.ret ≠ pid ∧ -1 ≠ final.ret) := by
      rcases hfinal with h | h
      · simp [h]
      · simp [h]
    simp [wait_loop, hcond, wait_events, World.log]
  | cons r rs ih =>
    intro w hst
    have hr := hst r (List.mem_cons_self _ _)
    have hrs : ∀ x ∈ rs, x.ret ≠ pid ∧ x.ret ≠ -1 :=
      fun x hx => hst x (List.mem_cons_of_mem _ hx)
    have hcond : r.ret ≠ pid ∧ -1 ≠ r.ret := ⟨hr.1, fun h => hr.2 h.symm⟩
    have hstep : wait_loop pid ((r :: rs) ++ final :: more) w
        = wait_loop pid (rs ++ final :: more)
            ((w.log (Event.waitpid pid r.ret r.status)).log
              (Event.syslog "Child %d exited, will restart later!\n")) := by
      show wait_loop pid (r :: (rs ++ final :: more)) w = _
      conv_lhs => rw [wait_loop]
      exact if_pos hcond
    rw [hstep, ih _ hrs]
    simp [wait_events, World.log]

theorem supervise_exit (eapol_start : EapolResult) (stimuli : List Stimulus) (x : WorkerExit)
    (rest : List Spawn) (w : World) (hx : x.valid) :
    supervise eapol_start stimuli (x.spawn :: rest) w
      = supervise eapol_start stimuli rest
          { ctx := w.ctx, ec := w.ec, handlers := w.handlers
            trace := w.trace ++ x.events } := by
  obtain ⟨hpid, hst, hfin⟩ := hx
  have hne : ¬ (0 : Int) = x.pid := by omega
  have hw := wait_loop_exit x.pid x.final [] hfin x.stalls
    ((w.log (Event.fork x.pid)).log (Event.syslog "Start child %d\n")) hst
  simp only [supervise, WorkerExit.spawn, hne, if_false, hpid, if_true, hw]
  simp [World.log, WorkerExit.events]

theorem supervise_exits (eapol_start : EapolResult) (stimuli : List Stimulus)
    (rest : List Spawn) (exits : List WorkerExit) :
    ∀ w : World, (∀ x ∈ exits, x.valid) →
      supervise eapol_start stimuli (exits.map WorkerExit.spawn ++ rest) w
        = supervise eapol_start stimuli rest
            { ctx := w.ctx, ec := w.ec, handlers := w.handlers
              trace := w.trace ++ supervision_events exits } := by
  induction exits with
  | nil => intro w _; simp [supervision_events]
  | cons x xs ih =>
    intro w hv
    have hx := hv x (List.mem_cons_self _ _)
    have hxs : ∀ y ∈ xs, y.valid := fun y hy => hv y (List.mem_cons_of_mem _ hy)
    rw [List.map_cons, List.cons_append, supervise_exit eapol_start stimuli x _ w hx, ih _ hxs]
    simp [supervision_events]

theorem wait_loop_fst (pid : Int) (waits : List WaitResult) :
    ∀ w : World, ∃ w1 b, wait_loop pid waits w = (w1, b) := by
  intro w
  exact ⟨(wait_loop pid waits w).1, (wait_loop pid waits w).2, rfl⟩

theorem supervise_never_exits (eapol_start : EapolResult) (stimuli : List Stimulus)
    (spawns : List Spawn) :
    ∀ w : World, (∀ s ∈ spawns, s.fork ≠ 0) →
      ∃ w1, supervise eapol_start stimuli spawns w = Outcome.pending w1 := by
  induction spawns with
  | nil => intro w _; exact ⟨w, rfl⟩
  | cons s rest ih =>
    intro w hs
    have h0 : ¬ (0 : Int) = s.fork := fun h => hs s (List.mem_cons_self _ _) h.symm
    have hrest : ∀ x ∈ rest, x.fork ≠ 0 := fun x hx => hs x (List.mem_cons_of_mem _ hx)
    by_cases hpos : 0 < s.fork
    · obtain ⟨w1, b, hw⟩ := wait_loop_fst s.fork s.waits
        ((w.log (Event.fork s.fork)).log (Event.syslog "Start child %d\n"))
      cases b with
      | false =>
        refine ⟨w1, ?_⟩
        simp only [supervise, h0, if_false, hpos, if_true, hw]
      | true =>
        obtain ⟨w2, h2⟩ := ih (w1.log (Event.sleep 5)) hrest
        refine ⟨w2, ?_⟩
        simp only [supervise, h0, if_false, hpos, if_true, hw]
        exact h2
    · obtain ⟨w2, h2⟩ := ih ((w.log (Event.fork s.fork)).log (Event.sleep 5)) hrest
      refine ⟨w2, ?_⟩
      simp only [supervise, h0, if_false, hpos]
      exact h2

theorem spawned_append (a b : List Event) : spawned (a ++ b) = spawned a + spawned b := by
  simp [spawned]

theorem delays_append (a b : List Event) : delays (a ++ b) = delays a + delays b := by
  simp [delays]

theorem wait_events_counts (pid : Int) (waits : List WaitResult) :
    spawned (wait_events pid waits) = 0 ∧ delays (wait_events pid waits) = 0 := by
  induction waits with
  | nil => simp [wait_events, spawned, delays]
  | cons r rs ih =>
    obtain ⟨h1, h2⟩ := ih
    simp only [spawned, delays] at h1 h2
    simp [wait_events, spawned, delays, is_spawn, h1, h2, List.countP_cons, List.count_cons]

theorem events_counts (x : WorkerExit) (hx : x.valid) :
    spawned x.events = 1 ∧ delays x.events = 1 := by
  obtain ⟨h1, h2⟩ := wait_events_counts x.pid (x.stalls ++ [x.final])
  have hpid : 0 < x.pid := hx.1
  simp only [spawned, delays] at h1 h2
  constructor
  · simp [WorkerExit.events, spawned, is_spawn, List.countP_cons, hpid, h1]
  · simp [WorkerExit.events, delays, List.count_cons, h2]

theorem supervision_events_counts (exits : List WorkerExit) (hv : ∀ x ∈ exits, x.valid) :
    spawned (supervision_events exits) = exits.length
      ∧ delays (supervision_events exits) = exits.length := by
  induction exits with
  | nil => simp [supervision_events, spawned, delays]
  | cons x xs ih =>
    obtain ⟨h1, h2⟩ := ih (fun y hy => hv y (List.mem_cons_of_mem _ hy))
    obtain ⟨g1, g2⟩ := events_counts x (hv x (List.mem_cons_self _ _))
    simp only [supervision_events, spawned_append, delays_append, h1, h2, g1, g2,
      List.length_cons]
    omega


/-- C9: `h3c_daemon` returns at once when the process id is 1 and otherwise,
once detached, runs the supervision loop. In that loop, for every sequence of
workers that exit (for any reason, with any status) followed by a worker that
is still running, the supervisor's calls are, for each worker that exits, the
spawn, the wait and then the delay of 5 seconds, followed by the spawn of the
replacement: after n exits there have been n + 1 spawns and n delays and the
supervisor is still in its loop. The supervisor never leaves the loop, a
failed `fork` is followed by the same delay and another attempt, and the
spawned process performs `h3c_run` and nothing after it. -/
theorem supervise_respawns (eapol_start : EapolResult) (stimuli : List Stimulus)
    (exits : List WorkerExit) (pid : Int) (w : World)
    (hvalid : ∀ x ∈ exits, x.valid) (hpid : 0 < pid) :
    supervise eapol_start stimuli (exits.map WorkerExit.spawn ++ [⟨pid, []⟩]) w
        = Outcome.pending
            { ctx := w.ctx, ec := w.ec, handlers := w.handlers
              trace := w.trace
                ++ (supervision_events exits
                    ++ [Event.fork pid, Event.syslog "Start child %d\n"]) }
      ∧ spawned (supervision_events exits ++ [Event.fork pid, Event.syslog "Start child %d\n"])
          = exits.length + 1
      ∧ delays (supervision_events exits ++ [Event.fork pid, Event.syslog "Start child %d\n"])
          = exits.length
      ∧ (∀ spawns : List Spawn, (∀ s ∈ spawns, s.fork ≠ 0) →
          ∃ w1, supervise eapol_start stimuli spawns w = Outcome.pending w1)
      ∧ (∀ (ret : Int) (waits : List WaitResult) (rest : List Spawn), ret < 0 →
          supervise eapol_start stimuli (⟨ret, waits⟩ :: rest) w
            = supervise eapol_start stimuli rest ((w.log (Event.fork ret)).log (Event.sleep 5)))
      ∧ (∀ (waits : List WaitResult) (rest : List Spawn),
          supervise eapol_start stimuli (⟨0, waits⟩ :: rest) w
            = h3c_run eapol_start stimuli (w.log (Event.fork 0)))
      ∧ (∀ env : DaemonEnv, env.getpid = 1 →
          h3c_daemon env w = Outcome.ret () (w.log Event.getpid))
      ∧ (∀ env : DaemonEnv, env.getpid ≠ 1 → env.fork = 0 → 0 ≤ env.setsid → 0 ≤ env.chdir →
          h3c_daemon env w
            = supervise env.eapol_start env.stimuli env.spawns
                (detach ((((w.log Event.getpid).log (Event.fork 0)).log Event.setsid).log
                  Event.chdir))) := by
  obtain ⟨c1, c2⟩ := supervision_events_counts exits hvalid
  refine ⟨?_, ?_, ?_, ?_, ?_, ?_, ?_, ?_⟩
  · have hne : ¬ (0 : Int) = pid := by omega
    rw [supervise_exits eapol_start stimuli _ exits w hvalid]
    simp [supervise, hne, hpid, wait_loop, World.log]
  · rw [spawned_append, c1]
    simp [spawned, is_spawn, List.countP_cons, hpid]
  · rw [delays_append, c2]
    simp [delays, List.count_cons]
  · intro spawns hs
    exact supervise_never_exits eapol_start stimuli spawns w hs
  · intro ret waits rest hret
    have h0 : ¬ (0 : Int) = ret := by omega
    have h1 : ¬ (0 : Int) < ret := by omega
    simp [supervise, h0, h1]
  · intro waits rest
    have hnr := h3c_run_no_return eapol_start stimuli (w.log (Event.fork 0))
    cases hrun : h3c_run eapol_start stimuli (w.log (Event.fork 0)) with
    | ret a w2 => exact absurd hrun (hnr a w2)
    | exit st w2 => simp [supervise, hrun]
    | killed sig w2 => simp [supervise, hrun]
    | pending w2 => simp [supervise, hrun]
    | fault => simp [supervise, hrun]
  · intro env h1
    simp [h3c_daemon, h1]
  · intro env h1 h2 h3 h4
    have g3 : ¬ env.setsid < 0 := by omega
    have g4 : ¬ env.chdir < 0 := by omega
    simp [h3c_daemon, h1, h2, g3, g4]

/-- C9, evaluated: worker 41 exits with status 256 and worker 42 is reported
gone by `waitpid` returning -1; worker 43 is running. Three spawns, two
delays. -/
theorem supervise_respawns_witness :
    supervise EapolResult.EAPOL_OK []
        [⟨41, [⟨41, 256⟩]⟩, ⟨42, [⟨-1, 0⟩]⟩, ⟨43, []⟩] World.start
      = Outcome.pending
          { ctx := none, ec := World.start.ec, handlers := []
            trace :=
              [Event.fork 41, Event.syslog "Start child %d\n", Event.waitpid 41 41 256,
               Event.syslog "Child %d exited, will restart later!\n", Event.sleep 5,
               Event.fork 42, Event.syslog "Start child %d\n", Event.waitpid 42 (-1) 0,
               Event.syslog "Child %d exited, will restart later!\n", Event.sleep 5,
               Event.fork 43, Event.syslog "Start child %d\n"] }
    ∧ spawned (supervision_events [⟨41, [], ⟨41, 256⟩⟩, ⟨42, [], ⟨-1, 0⟩⟩]
        ++ [Event.fork 43, Event.syslog "Start child %d\n"]) = 3
    ∧ delays (supervision_events [⟨41, [], ⟨41, 256⟩⟩, ⟨42, [], ⟨-1, 0⟩⟩]
        ++ [Event.fork 43, Event.syslog "Start child %d\n"]) = 2 :=
  have h := supervise_respawns EapolResult.EAPOL_OK []
    [⟨41, [], ⟨41, 256⟩⟩, ⟨42, [], ⟨-1, 0⟩⟩] 43 World.start
    (by decide) (by decide)
  ⟨h.1, h.2.1, h.2.2.1⟩

end H3C
